import Mathlib

/-!
CryptoPulse: market analyzer, pending prompts and monitor registry.

A shallow embedding of `analyzer/analyzer.go`, `api/routes.go` and
`models/models.go`.

* Go maps `map[string]V` are finite maps kept in canonical form (entries sorted
  by key), so two maps with the same bindings are equal and `json.Marshal`,
  which writes map keys in sorted order, is a function of the map.  The order in
  which a `range` loop visits a map is unspecified in Go; it is an explicit
  argument (`RangeOrder`) of every function that ranges over a map.
* `sync.RWMutex` is a non-reentrant lock: a `Lock()` on a held lock does not
  return until the holder releases it.  Calls are modelled as run by one
  goroutine from entry to exit; a `Lock()` that finds the lock held ends the
  call with `Exit.blocked`.
* Library functions (`strconv.ParseFloat`, `time.ParseDuration`,
  `json.Marshal`, `fmt.Sprintf`, `uuid.New`) and the exchange's HTTP responses
  are parameters.
-/

namespace CryptoPulse

/-! ## Go maps with string keys -/

/-- Code points of a key.  Go orders strings bytewise, which on UTF-8 text is
the order of the code point sequences. -/
def keyCodes (s : String) : List Nat := s.data.map Char.toNat

/-- Lexicographic strict order on code point sequences. -/
def ltCodes : List Nat → List Nat → Bool
  | _, [] => false
  | [], _ :: _ => true
  | a :: as, b :: bs => decide (a < b) || (decide (a = b) && ltCodes as bs)

/-- Strict order on map keys. -/
def keyLt (a b : String) : Prop := ltCodes (keyCodes a) (keyCodes b) = true

instance keyLtDecidable : DecidableRel keyLt :=
  fun a b => inferInstanceAs (Decidable (ltCodes (keyCodes a) (keyCodes b) = true))

/-- Entries listed in strictly increasing key order. -/
def KeySorted {ν : Type} (l : List (String × ν)) : Prop :=
  l.Pairwise (fun a b => keyLt a.1 b.1)

/-- Store `k ↦ v` in a key-sorted entry list, replacing a binding of `k`. -/
def insertEntry {ν : Type} (k : String) (v : ν) : List (String × ν) → List (String × ν)
  | [] => [(k, v)]
  | e :: rest =>
    if keyLt k e.1 then (k, v) :: e :: rest
    else if k = e.1 then (k, v) :: rest
    else e :: insertEntry k v rest

/-- Value bound to `k` in an entry list. -/
def lookupEntry {ν : Type} (k : String) : List (String × ν) → Option ν
  | [] => none
  | e :: rest => if k = e.1 then some e.2 else lookupEntry k rest

/-- Remove the binding of `k` from an entry list. -/
def eraseEntry {ν : Type} (k : String) (l : List (String × ν)) : List (String × ν) :=
  l.filter (fun e => decide (e.1 ≠ k))

/-! The order on keys is a strict linear order, and storing and removing keep an
entry list sorted; `GoMap` below rests on this. -/

theorem ltCodes_trans : ∀ (a b c : List Nat),
    ltCodes a b = true → ltCodes b c = true → ltCodes a c = true
  | _, [], _, h, _ => by simp [ltCodes] at h
  | _, _ :: _, [], _, h => by simp [ltCodes] at h
  | [], _ :: _, _ :: _, _, _ => by simp [ltCodes]
  | x :: xs, y :: ys, z :: zs, h₁, h₂ => by
    simp only [ltCodes, Bool.or_eq_true, Bool.and_eq_true, decide_eq_true_eq] at h₁ h₂ ⊢
    rcases h₁ with h₁ | ⟨h₁, t₁⟩
    · rcases h₂ with h₂ | ⟨h₂, _⟩
      · exact Or.inl (lt_trans h₁ h₂)
      · exact Or.inl (h₂ ▸ h₁)
    · rcases h₂ with h₂ | ⟨h₂, t₂⟩
      · exact Or.inl (h₁ ▸ h₂)
      · exact Or.inr ⟨h₁.trans h₂, ltCodes_trans xs ys zs t₁ t₂⟩

theorem ltCodes_connex : ∀ (a b : List Nat),
    ltCodes a b = false → ltCodes b a = false → a = b
  | [], [], _, _ => rfl
  | [], _ :: _, h, _ => by simp [ltCodes] at h
  | _ :: _, [], _, h => by simp [ltCodes] at h
  | x :: xs, y :: ys, h₁, h₂ => by
    simp only [ltCodes, Bool.or_eq_false_iff, Bool.and_eq_false_imp,
      decide_eq_false_iff_not, decide_eq_true_eq, not_lt] at h₁ h₂
    have hxy : x = y := le_antisymm h₂.1 h₁.1
    rw [hxy, ltCodes_connex xs ys (h₁.2 hxy) (h₂.2 hxy.symm)]

theorem keyCodes_injective : Function.Injective keyCodes := by
  intro a b h
  have hd : a.data = b.data :=
    List.map_injective_iff.mpr (fun x y hxy => Char.ext (UInt32.ext hxy)) h
  exact String.ext hd

theorem keyLt_trans {a b c : String} (h₁ : keyLt a b) (h₂ : keyLt b c) : keyLt a c :=
  ltCodes_trans _ _ _ h₁ h₂

theorem keyLt_connex {a b : String} (h₁ : ¬ keyLt a b) (h₂ : ¬ keyLt b a) : a = b :=
  keyCodes_injective
    (ltCodes_connex _ _ (by simpa [keyLt] using h₁) (by simpa [keyLt] using h₂))

theorem mem_insertEntry {ν : Type} {k : String} {v : ν} {e : String × ν} :
    ∀ {l : List (String × ν)}, e ∈ insertEntry k v l → e = (k, v) ∨ e ∈ l
  | [], h => by simpa [insertEntry] using h
  | x :: rest, h => by
    unfold insertEntry at h
    split_ifs at h with h₁ h₂
    · simpa using h
    · rcases List.mem_cons.mp h with h | h
      · exact Or.inl h
      · exact Or.inr (List.mem_cons_of_mem _ h)
    · rcases List.mem_cons.mp h with h | h
      · exact Or.inr (h ▸ List.mem_cons_self _ _)
      · rcases mem_insertEntry h with h | h
        · exact Or.inl h
        · exact Or.inr (List.mem_cons_of_mem _ h)

theorem keySorted_insertEntry {ν : Type} (k : String) (v : ν) :
    ∀ {l : List (String × ν)}, KeySorted l → KeySorted (insertEntry k v l)
  | [], _ => by simp [insertEntry, KeySorted]
  | x :: rest, h => by
    have hx := List.pairwise_cons.mp h
    unfold insertEntry
    split_ifs with h₁ h₂
    · refine List.pairwise_cons.mpr ⟨?_, h⟩
      intro e he
      rcases List.mem_cons.mp he with he | he
      · exact he ▸ h₁
      · exact keyLt_trans h₁ (hx.1 e he)
    · refine List.pairwise_cons.mpr ⟨?_, hx.2⟩
      intro e he
      exact h₂ ▸ hx.1 e he
    · refine List.pairwise_cons.mpr ⟨?_, keySorted_insertEntry k v hx.2⟩
      intro e he
      rcases mem_insertEntry he with he | he
      · rw [he]
        by_contra hc
        exact h₂ (keyLt_connex h₁ hc)
      · exact hx.1 e he

theorem keySorted_eraseEntry {ν : Type} (k : String) {l : List (String × ν)}
    (h : KeySorted l) : KeySorted (eraseEntry k l) :=
  List.Pairwise.sublist (List.filter_sublist l) h

/-- A Go `map[string]ν`: finitely many bindings, at most one per key. -/
structure GoMap (ν : Type) where
  /-- The bindings, in increasing key order. -/
  entries : List (String × ν)
  /-- No key is bound twice. -/
  sorted : KeySorted entries

namespace GoMap

/-- Go `make(map[string]ν)`. -/
def empty {ν : Type} : GoMap ν := ⟨[], List.Pairwise.nil⟩

/-- Go `v, ok := m[k]`. -/
def get {ν : Type} (m : GoMap ν) (k : String) : Option ν := lookupEntry k m.entries

/-- Go `m[k] = v`. -/
def set {ν : Type} (m : GoMap ν) (k : String) (v : ν) : GoMap ν :=
  ⟨insertEntry k v m.entries, keySorted_insertEntry k v m.sorted⟩

/-- Go `delete(m, k)`. -/
def delete {ν : Type} (m : GoMap ν) (k : String) : GoMap ν :=
  ⟨eraseEntry k m.entries, keySorted_eraseEntry k m.sorted⟩

/-- Go `len(m)`. -/
def len {ν : Type} (m : GoMap ν) : Nat := m.entries.length

/-- The map built by storing the listed bindings one after the other. -/
def ofList {ν : Type} (l : List (String × ν)) : GoMap ν :=
  l.foldl (fun m e => m.set e.1 e.2) empty

end GoMap

/-- An order in which a `range` loop may visit the map `m`: every binding once. -/
structure RangeOrder {ν : Type} (m : GoMap ν) where
  /-- The bindings in the order visited. -/
  visit : List (String × ν)
  /-- Every binding is visited exactly once. -/
  perm : visit.Perm m.entries

/-- The visiting order that follows the keys. -/
def RangeOrder.sortedOrder {ν : Type} (m : GoMap ν) : RangeOrder m :=
  ⟨m.entries, List.Perm.refl _⟩

/-- The visiting order that follows the keys backwards. -/
def RangeOrder.reverseOrder {ν : Type} (m : GoMap ν) : RangeOrder m :=
  ⟨m.entries.reverse, List.reverse_perm _⟩

/-! ## Data model (`models/models.go`, `analyzer/analyzer.go`) -/

/-- A Go `float64`, by its IEEE-754 bit pattern.  The program stores, copies and
serialises quantities and never computes with them. -/
structure Float64 where
  /-- The 64 bits of the value. -/
  bits : Nat
deriving DecidableEq, Repr

/-- Go `models.Kline`. -/
structure Kline where
  OpenTime : Int
  Open : String
  High : String
  Low : String
  Close : String
  Volume : String
  CloseTime : Int
deriving DecidableEq, Repr

/-- Go `models.OrderBook`. -/
structure OrderBook where
  LastUpdateID : Int
  Bids : GoMap Float64
  Asks : GoMap Float64

/-- A Go `interface{}` value as `json.Unmarshal` produces it. -/
inductive Interface where
  | null
  | bool (b : Bool)
  | float64 (f : Float64)
  | string (s : String)
  | slice (xs : List Interface)
  | object (fields : List (String × Interface))

/-- One element of `ma.trades`, a `map[string]interface{}` the program never looks into. -/
structure Trade where
  /-- The decoded fields of the record. -/
  fields : List (String × Interface)

/-- The map literal `GenerateChartData` returns: `"kline"` and `"depth"` with its
`"bids"` and `"asks"`. -/
structure ChartData where
  kline : GoMap (List Kline)
  bids : GoMap Float64
  asks : GoMap Float64

/-- Go `MarketAnalyzer`: the fields the modelled methods read or write.  Field
`cancelled` stands for `ctx` and `cancel` (whether `ctx.Done()` is closed),
`muLocked` for `mu`; `latestChartData` is `none` for the empty map
`NewMarketAnalyzer` stores. -/
structure MarketAnalyzer where
  aiEndpoint : String
  symbol : String
  intervals : List String
  orderBook : OrderBook
  klines : GoMap (List Kline)
  trades : List Trade
  sentiment : String
  cancelled : Bool
  muLocked : Bool
  latestChartData : Option ChartData

/-- Go `AnalysisResponse`. -/
structure AnalysisResponse where
  AnalysisID : String
  ReportID : String
deriving DecidableEq, Repr

/-- The package-level variables `globalPendingPrompts` and `globalPromptsMu`. -/
structure Globals where
  pendingPrompts : GoMap String
  promptsMuLocked : Bool

/-- The errors the modelled functions return. -/
inductive Error where
  /-- `fmt.Errorf("unsupported AI endpoint: %s", ma.aiEndpoint)`. -/
  | unsupportedEndpoint (endpoint : String)
  /-- The error `reportMgr.SaveReport` returned. -/
  | saveReport (cause : String)
  /-- `fmt.Errorf("fetch klines failed: %w", err)`. -/
  | fetchKlines
  /-- `fmt.Errorf("unmarshal klines failed: %w", err)`. -/
  | unmarshalKlines
  /-- `fmt.Errorf("fetch depth failed: %w", err)`. -/
  | fetchDepth
  /-- `fmt.Errorf("unmarshal depth failed: %w", err)`. -/
  | unmarshalDepth
  /-- `fmt.Errorf("fetch trades failed: %w", err)`. -/
  | fetchTrades
  /-- `fmt.Errorf("unmarshal trades failed: %w", err)`. -/
  | unmarshalTrades
  /-- The error `time.ParseDuration` returned. -/
  | parseDuration
deriving DecidableEq, Repr

/-- How a call ends. -/
inductive Exit (α : Type) where
  /-- The call returned `a`. -/
  | ret (a : α)
  /-- A run-time panic unwound the call. -/
  | panicked
  /-- The call is inside `Lock()` on a lock that is held and does not return
  while the lock stays held. -/
  | blocked

/-- The library functions the program calls. -/
structure Library where
  /-- `json.Marshal(limitedKlines)` as a string; a kline holds strings and 64-bit
  integers only, on which `json.Marshal` returns no error. -/
  marshalKlines : GoMap (List Kline) → String
  /-- `json.Marshal` of the map literal with `"bids"` and `"asks"`; `none` for an
  error, which `encoding/json` returns for a quantity that is NaN or infinite. -/
  marshalOrderBook : GoMap Float64 → GoMap Float64 → Option String
  /-- `json.Marshal(limitedTrades)` as a string; the trades are values that
  `json.Unmarshal` produced, on which `json.Marshal` returns no error. -/
  marshalTrades : List Trade → String
  /-- `fmt.Sprintf` of the prompt template with symbol, intervals, the three JSON
  texts, sentiment, analysis type and cycle. -/
  sprintfPrompt : String → List String → String → String → String → String → String →
    String → String
  /-- `json.Marshal` of the map literal with `"prompt"`; `none` for an error. -/
  marshalPrompt : String → Option String
  /-- `strconv.ParseFloat(s, 64)`: the value and whether the error is nil. -/
  ParseFloat : String → Float64 × Bool
  /-- The conversion `int64(f)`. -/
  toInt64 : Float64 → Int
  /-- `time.ParseDuration`: nanoseconds, `none` for an error. -/
  ParseDuration : String → Option Int

/-! ## Chart view and prompt (`analyzer/analyzer.go`) -/

/-- The slice expression of both truncation loops:
`if len(klines) > n { filtered = klines[len(klines)-n:] }`. -/
def lastN {α : Type} (n : Nat) (xs : List α) : List α :=
  if xs.length > n then xs.drop (xs.length - n) else xs

/-- Go `GenerateChartData`, lines 108-145; `order` is the order in which the
`range` over `ma.klines` visits it. -/
def GenerateChartData (ma : MarketAnalyzer) (order : RangeOrder ma.klines) :
    MarketAnalyzer × Exit ChartData :=
  if ma.muLocked then (ma, Exit.blocked)
  else
    let ma₁ := { ma with muLocked := true }
    let limitedKlines : GoMap (List Kline) :=
      order.visit.foldl (fun acc e => acc.set e.1 (lastN 20 e.2)) GoMap.empty
    let chartData : ChartData :=
      { kline := limitedKlines, bids := ma₁.orderBook.Bids, asks := ma₁.orderBook.Asks }
    ({ ma₁ with muLocked := false }, Exit.ret chartData)

/-- Go `GetLatestChartData`, lines 148-152. -/
def GetLatestChartData (ma : MarketAnalyzer) : MarketAnalyzer × Exit (Option ChartData) :=
  if ma.muLocked then (ma, Exit.blocked) else (ma, Exit.ret ma.latestChartData)

/-- One side of the order book as `generatePrompt` limits it, lines 315-329:
a counter and a fresh map, and a binding is stored while the counter is below 50. -/
def limitSide (visit : List (String × Float64)) : GoMap Float64 :=
  (visit.foldl
    (fun (acc : GoMap Float64 × Nat) e =>
      if acc.2 < 50 then (acc.1.set e.1 e.2, acc.2 + 1) else acc)
    (GoMap.empty, 0)).1

/-- The four values `generatePrompt` hands to `json.Marshal`. -/
structure PromptData where
  limitedKlines : GoMap (List Kline)
  limitedTrades : List Trade
  limitedBids : GoMap Float64
  limitedAsks : GoMap Float64

/-- Lines 301-329 of `generatePrompt`: the limited klines, trades and order book. -/
def promptData (ma : MarketAnalyzer) (ok : RangeOrder ma.klines)
    (ob : RangeOrder ma.orderBook.Bids) (oa : RangeOrder ma.orderBook.Asks) : PromptData :=
  { limitedKlines := ok.visit.foldl (fun acc e => acc.set e.1 (lastN 10 e.2)) GoMap.empty
    limitedTrades := lastN 50 ma.trades
    limitedBids := limitSide ob.visit
    limitedAsks := limitSide oa.visit }

/-- Lines 331-373 of `generatePrompt`: the serialised data in the template.  The
error of each `json.Marshal` is dropped with the blank identifier; on an error the
byte slice is `nil` and `string(orderBookJSON)` is the empty string. -/
def promptText (lib : Library) (ma : MarketAnalyzer) (d : PromptData)
    (analysisType cycle : String) : String :=
  lib.sprintfPrompt ma.symbol ma.intervals (lib.marshalKlines d.limitedKlines)
    ((lib.marshalOrderBook d.limitedBids d.limitedAsks).getD "")
    (lib.marshalTrades d.limitedTrades) ma.sentiment analysisType cycle

/-- Go `generatePrompt`, lines 297-374. -/
def generatePrompt (lib : Library) (ma : MarketAnalyzer) (ok : RangeOrder ma.klines)
    (ob : RangeOrder ma.orderBook.Bids) (oa : RangeOrder ma.orderBook.Asks)
    (analysisType cycle : String) (_startTime _endTime : Int) :
    MarketAnalyzer × Exit String :=
  if ma.muLocked then (ma, Exit.blocked)
  else
    let ma₁ := { ma with muLocked := true }
    let text := promptText lib ma₁ (promptData ma ok ob oa) analysisType cycle
    ({ ma₁ with muLocked := false }, Exit.ret text)

/-- Go `GeneratePrompt`, lines 258-273. -/
def GeneratePrompt (lib : Library) (ma : MarketAnalyzer) (ok : RangeOrder ma.klines)
    (ob : RangeOrder ma.orderBook.Bids) (oa : RangeOrder ma.orderBook.Asks) :
    MarketAnalyzer × Exit String :=
  match generatePrompt lib ma ok ob oa "monitor" "continuous" 0 0 with
  | (ma₁, Exit.ret promptStr) =>
    match lib.marshalPrompt promptStr with
    | some promptBytes => (ma₁, Exit.ret promptBytes)
    | none => (ma₁, Exit.ret promptStr)
  | (ma₁, Exit.panicked) => (ma₁, Exit.panicked)
  | (ma₁, Exit.blocked) => (ma₁, Exit.blocked)

/-! ## Pending prompts (`analyzer/analyzer.go`) -/

/-- Lines 244-254 of `CallAIAnalysis`, what follows the call of `GeneratePrompt`:
the prompt is stored under the id, both locks are released, and the answer depends
on the endpoint. -/
def CallAIAnalysis.store (analysisID prompt : String) (ma : MarketAnalyzer) (g : Globals) :
    MarketAnalyzer × Globals × Exit (AnalysisResponse × Option Error) :=
  if g.promptsMuLocked then (ma, g, Exit.blocked)
  else
    let g₁ : Globals :=
      { pendingPrompts := g.pendingPrompts.set analysisID prompt, promptsMuLocked := false }
    let ma₁ : MarketAnalyzer := { ma with muLocked := false }
    if ma₁.aiEndpoint = "manual" then
      (ma₁, g₁, Exit.ret ({ AnalysisID := analysisID, ReportID := "" }, none))
    else
      (ma₁, g₁, Exit.ret ({ AnalysisID := "", ReportID := "" },
        some (Error.unsupportedEndpoint ma₁.aiEndpoint)))

/-- Go `CallAIAnalysis`, lines 240-255; `analysisID` is the string `uuid.New()` gives.
Line 241 takes `ma.mu`, and line 243 calls `GeneratePrompt` with it held. -/
def CallAIAnalysis (lib : Library) (analysisID : String) (ma : MarketAnalyzer)
    (ok : RangeOrder ma.klines) (ob : RangeOrder ma.orderBook.Bids)
    (oa : RangeOrder ma.orderBook.Asks) (g : Globals) :
    MarketAnalyzer × Globals × Exit (AnalysisResponse × Option Error) :=
  if ma.muLocked then (ma, g, Exit.blocked)
  else
    let ma₁ : MarketAnalyzer := { ma with muLocked := true }
    match GeneratePrompt lib ma₁ ok ob oa with
    | (ma₂, Exit.ret prompt) => CallAIAnalysis.store analysisID prompt ma₂ g
    | (ma₂, Exit.panicked) => (ma₂, g, Exit.panicked)
    | (ma₂, Exit.blocked) => (ma₂, g, Exit.blocked)

/-- Go `GetPendingPrompt`, lines 276-281. -/
def GetPendingPrompt (analysisID : String) (g : Globals) : Exit (String × Bool) :=
  if g.promptsMuLocked then Exit.blocked
  else
    match g.pendingPrompts.get analysisID with
    | some prompt => Exit.ret (prompt, true)
    | none => Exit.ret ("", false)

/-- Go `SubmitManualResponse`, lines 284-294; `SaveReport` is the report manager's
method (its error, if any) and `reportID` the string `uuid.New()` gives. -/
def SubmitManualResponse (SaveReport : String → String → Option Error) (reportID : String)
    (analysisID responseJSON : String) (g : Globals) :
    Globals × Exit (AnalysisResponse × Option Error) :=
  if g.promptsMuLocked then (g, Exit.blocked)
  else
    let g₁ : Globals :=
      { pendingPrompts := g.pendingPrompts.delete analysisID, promptsMuLocked := false }
    match SaveReport reportID responseJSON with
    | some err => (g₁, Exit.ret ({ AnalysisID := "", ReportID := "" }, some err))
    | none => (g₁, Exit.ret ({ AnalysisID := "", ReportID := reportID }, none))

/-! ## Fetching market data (`analyzer/analyzer.go`) -/

/-- What one `httpClient.R().Get(url)` followed by `json.Unmarshal` comes to. -/
inductive HttpResult (α : Type) where
  /-- `Get` returned an error. -/
  | fetchFailed
  /-- `json.Unmarshal` of the body returned an error. -/
  | unmarshalFailed
  /-- The body decoded into `body`. -/
  | decoded (body : α)

/-- The anonymous struct the depth body is decoded into, lines 194-198. -/
structure DepthBody where
  LastUpdateID : Int
  Bids : List (String × String)
  Asks : List (String × String)

/-- The exchange during one `FetchRealtimeData` call: the reply to the `i`-th klines
request (for `interval`), to the depth request and to the trades request. -/
structure Exchange where
  klines : Nat → String → HttpResult (List (List Interface))
  depth : HttpResult DepthBody
  trades : HttpResult (List Trade)

/-- The type assertion `x.(float64)` on `k[i]`; `none` is a panic (index out of
range or wrong dynamic type). -/
def assertFloat64 : Option Interface → Option Float64
  | some (Interface.float64 f) => some f
  | _ => none

/-- The type assertion `x.(string)` on `k[i]`; `none` is a panic. -/
def assertString : Option Interface → Option String
  | some (Interface.string s) => some s
  | _ => none

/-- The composite literal of lines 173-181 for one row; `none` is a panic. -/
def klineOfRow (lib : Library) (k : List Interface) : Option Kline :=
  match assertFloat64 k[0]?, assertString k[1]?, assertString k[2]?, assertString k[3]?,
    assertString k[4]?, assertString k[5]?, assertFloat64 k[6]? with
  | some openTime, some open_, some high, some low, some close, some volume, some closeTime =>
    some { OpenTime := lib.toInt64 openTime, Open := open_, High := high, Low := low,
           Close := close, Volume := volume, CloseTime := lib.toInt64 closeTime }
  | _, _, _, _, _, _, _ => none

/-- The loop of lines 172-182: each row is appended to `ma.klines[interval]`. -/
def appendKlines (lib : Library) (interval : String) :
    List (List Interface) → MarketAnalyzer → MarketAnalyzer × Exit Unit
  | [], ma => (ma, Exit.ret ())
  | k :: rest, ma =>
    match klineOfRow lib k with
    | none => (ma, Exit.panicked)
    | some kline =>
      appendKlines lib interval rest
        { ma with klines := ma.klines.set interval ((ma.klines.get interval).getD [] ++ [kline]) }

/-- The body of the loop over `ma.intervals`, lines 158-184, for the `i`-th interval. -/
def fetchKlines (lib : Library) (ex : Exchange) (i : Nat) (interval : String)
    (ma : MarketAnalyzer) : MarketAnalyzer × Exit (Option Error) :=
  match ex.klines i interval with
  | HttpResult.fetchFailed => (ma, Exit.ret (some Error.fetchKlines))
  | HttpResult.unmarshalFailed => (ma, Exit.ret (some Error.unmarshalKlines))
  | HttpResult.decoded klines =>
    if ma.muLocked then (ma, Exit.blocked)
    else
      let ma₁ : MarketAnalyzer :=
        { ma with muLocked := true, klines := ma.klines.set interval [] }
      match appendKlines lib interval klines ma₁ with
      | (ma₂, Exit.ret ()) => ({ ma₂ with muLocked := false }, Exit.ret none)
      | (ma₂, Exit.panicked) => (ma₂, Exit.panicked)
      | (ma₂, Exit.blocked) => (ma₂, Exit.blocked)

/-- The loop over `ma.intervals`, lines 157-185, from the `i`-th interval on. -/
def fetchAllKlines (lib : Library) (ex : Exchange) :
    Nat → List String → MarketAnalyzer → MarketAnalyzer × Exit (Option Error)
  | _, [], ma => (ma, Exit.ret none)
  | i, interval :: rest, ma =>
    match fetchKlines lib ex i interval ma with
    | (ma₁, Exit.ret none) => fetchAllKlines lib ex (i + 1) rest ma₁
    | (ma₁, Exit.ret (some err)) => (ma₁, Exit.ret (some err))
    | (ma₁, Exit.panicked) => (ma₁, Exit.panicked)
    | (ma₁, Exit.blocked) => (ma₁, Exit.blocked)

/-- One of the loops of lines 207-214 on a fresh map:
`side[price], _ = strconv.ParseFloat(qty, 64)` for every level. -/
def storeLevels (lib : Library) (levels : List (String × String)) : GoMap Float64 :=
  levels.foldl (fun side level => side.set level.1 (lib.ParseFloat level.2).1) GoMap.empty

/-- The depth step of `FetchRealtimeData`, lines 187-216. -/
def fetchDepth (lib : Library) (ex : Exchange) (ma : MarketAnalyzer) :
    MarketAnalyzer × Exit (Option Error) :=
  match ex.depth with
  | HttpResult.fetchFailed => (ma, Exit.ret (some Error.fetchDepth))
  | HttpResult.unmarshalFailed => (ma, Exit.ret (some Error.unmarshalDepth))
  | HttpResult.decoded depth =>
    if ma.muLocked then (ma, Exit.blocked)
    else
      ({ ma with
          orderBook :=
            { LastUpdateID := depth.LastUpdateID
              Bids := storeLevels lib depth.Bids
              Asks := storeLevels lib depth.Asks }
          muLocked := false },
        Exit.ret none)

/-- The trades step of `FetchRealtimeData`, lines 218-234. -/
def fetchTrades (ex : Exchange) (ma : MarketAnalyzer) : MarketAnalyzer × Exit (Option Error) :=
  match ex.trades with
  | HttpResult.fetchFailed => (ma, Exit.ret (some Error.fetchTrades))
  | HttpResult.unmarshalFailed => (ma, Exit.ret (some Error.unmarshalTrades))
  | HttpResult.decoded trades =>
    if ma.muLocked then (ma, Exit.blocked)
    else ({ ma with trades := trades, sentiment := "neutral", muLocked := false }, Exit.ret none)

/-- Go `FetchRealtimeData`, lines 155-237. -/
def FetchRealtimeData (lib : Library) (ex : Exchange) (ma : MarketAnalyzer) :
    MarketAnalyzer × Exit (Option Error) :=
  match fetchAllKlines lib ex 0 ma.intervals ma with
  | (ma₁, Exit.ret none) =>
    match fetchDepth lib ex ma₁ with
    | (ma₂, Exit.ret none) => fetchTrades ex ma₂
    | other => other
  | other => other

/-- Go `ConnectWebSocket`, lines 98-105.  The comment on line 97 says it
establishes a WebSocket connection; the body dials nothing and only calls
`FetchRealtimeData`, returning its error. -/
def ConnectWebSocket (lib : Library) (ex : Exchange) (ma : MarketAnalyzer) :
    MarketAnalyzer × Exit (Option Error) :=
  FetchRealtimeData lib ex ma

/-- Go `NewMarketAnalyzer`, lines 54-95. -/
def NewMarketAnalyzer (symbol : String) (intervals : List String) (aiEndpoint : String) :
    MarketAnalyzer :=
  { aiEndpoint := aiEndpoint
    symbol := symbol
    intervals := intervals
    orderBook := { LastUpdateID := 0, Bids := GoMap.empty, Asks := GoMap.empty }
    klines := GoMap.empty
    trades := []
    sentiment := ""
    cancelled := false
    muLocked := false
    latestChartData := none }

/-- Go `Stop`, lines 414-416: `ma.cancel()`. -/
def MarketAnalyzer.Stop (ma : MarketAnalyzer) : MarketAnalyzer :=
  { ma with cancelled := true }

/-! ## The monitoring loop (`RunMonitor`) -/

/-- The visiting orders the Go runtime picks for the `range` loops of one cycle. -/
structure RangeChoice where
  klines : (m : GoMap (List Kline)) → RangeOrder m
  bids : (m : GoMap Float64) → RangeOrder m
  asks : (m : GoMap Float64) → RangeOrder m

/-- The body of `case <-ticker.C`, lines 394-408.  The result `()` stands for
reaching the end of the loop body (also through `continue`). -/
def monitorCycle (lib : Library) (ex : Exchange) (rc : RangeChoice) (analysisID : String)
    (ma : MarketAnalyzer) (g : Globals) : MarketAnalyzer × Globals × Exit Unit :=
  match FetchRealtimeData lib ex ma with
  | (ma₁, Exit.ret (some _)) => (ma₁, g, Exit.ret ())
  | (ma₁, Exit.panicked) => (ma₁, g, Exit.panicked)
  | (ma₁, Exit.blocked) => (ma₁, g, Exit.blocked)
  | (ma₁, Exit.ret none) =>
    match GenerateChartData ma₁ (rc.klines ma₁.klines) with
    | (ma₂, Exit.panicked) => (ma₂, g, Exit.panicked)
    | (ma₂, Exit.blocked) => (ma₂, g, Exit.blocked)
    | (ma₂, Exit.ret chartData) =>
      if ma₂.muLocked then (ma₂, g, Exit.blocked)
      else
        let ma₃ : MarketAnalyzer :=
          { ma₂ with latestChartData := some chartData, muLocked := false }
        match CallAIAnalysis lib analysisID ma₃ (rc.klines ma₃.klines)
            (rc.bids ma₃.orderBook.Bids) (rc.asks ma₃.orderBook.Asks) g with
        | (ma₄, g₁, Exit.ret _) => (ma₄, g₁, Exit.ret ())
        | (ma₄, g₁, Exit.panicked) => (ma₄, g₁, Exit.panicked)
        | (ma₄, g₁, Exit.blocked) => (ma₄, g₁, Exit.blocked)

/-- Where the goroutine running `RunMonitor` stands. -/
inductive LoopState where
  /-- At the `select` of line 389. -/
  | selecting
  /-- Past `case <-ticker.C`, the cycle not yet run. -/
  | inCycle
  /-- `RunMonitor` has returned. -/
  | returned (err : Option Error)
  /-- The goroutine panicked. -/
  | panicked
  /-- The goroutine is inside a `Lock()` that does not return. -/
  | blocked
deriving DecidableEq, Repr

/-- One running monitor: the engine, the package-level variables, whether a tick
waits in the one-slot channel `ticker.C`, and the state of the loop goroutine. -/
structure Monitor where
  ma : MarketAnalyzer
  g : Globals
  tick : Bool
  loop : LoopState

/-- Go `RunMonitor` up to the first `select`, lines 378-387; `time.NewTicker` panics
on a duration that is not positive. -/
def RunMonitor.start (lib : Library) (cycle : String) (ma : MarketAnalyzer) (g : Globals) :
    Monitor :=
  match lib.ParseDuration cycle with
  | none => { ma := ma, g := g, tick := false, loop := LoopState.returned (some Error.parseDuration) }
  | some duration =>
    if duration ≤ 0 then { ma := ma, g := g, tick := false, loop := LoopState.panicked }
    else { ma := ma, g := g, tick := false, loop := LoopState.selecting }

/-- What can happen to a running monitor. -/
inductive Event where
  /-- Another goroutine calls `ma.Stop()`. -/
  | stop
  /-- The ticker sends on `ticker.C`; a tick already waiting makes it drop this one. -/
  | tickerFires
  /-- The `select` takes `case <-ma.ctx.Done()`. -/
  | selectDone
  /-- The `select` takes `case <-ticker.C`. -/
  | selectTick
  /-- The loop goroutine runs the body of `case <-ticker.C` against the exchange `ex`. -/
  | runCycle (ex : Exchange) (rc : RangeChoice) (analysisID : String)

/-- One step of a running monitor; `none` when the event cannot happen in this
state.  A `select` with both channels ready may take either case.  A goroutine
parked in the `select` is in fact bound to the case of whichever channel becomes
ready first; the steps allow it either case then as well, so every run of the
program is a run of these steps. -/
def Monitor.step (lib : Library) (m : Monitor) : Event → Option Monitor
  | Event.stop => some { m with ma := m.ma.Stop }
  | Event.tickerFires =>
    match m.loop with
    | LoopState.returned _ => none
    | _ => some { m with tick := true }
  | Event.selectDone =>
    if m.loop = LoopState.selecting ∧ m.ma.cancelled = true then
      some { m with loop := LoopState.returned none }
    else none
  | Event.selectTick =>
    if m.loop = LoopState.selecting ∧ m.tick = true then
      some { m with tick := false, loop := LoopState.inCycle }
    else none
  | Event.runCycle ex rc analysisID =>
    if m.loop = LoopState.inCycle then
      match monitorCycle lib ex rc analysisID m.ma m.g with
      | (ma₁, g₁, Exit.ret ()) => some { m with ma := ma₁, g := g₁, loop := LoopState.selecting }
      | (ma₁, g₁, Exit.panicked) => some { m with ma := ma₁, g := g₁, loop := LoopState.panicked }
      | (ma₁, g₁, Exit.blocked) => some { m with ma := ma₁, g := g₁, loop := LoopState.blocked }
    else none

/-- A run of events, in order; `none` when one of them cannot happen. -/
def Monitor.run (lib : Library) : Monitor → List Event → Option Monitor
  | m, [] => some m
  | m, e :: rest =>
    match m.step lib e with
    | some m₁ => Monitor.run lib m₁ rest
    | none => none

/-- The part of the engine the spec calls the snapshot, with the cached chart view. -/
structure Snapshot where
  klines : GoMap (List Kline)
  orderBook : OrderBook
  trades : List Trade
  latestChartData : Option ChartData

/-- The snapshot an engine holds. -/
def MarketAnalyzer.snapshot (ma : MarketAnalyzer) : Snapshot :=
  { klines := ma.klines, orderBook := ma.orderBook, trades := ma.trades,
    latestChartData := ma.latestChartData }

/-! ## Monitor registry and HTTP handlers (`api/routes.go`) -/

/-- Go `config.Config`. -/
structure Config where
  AIEndpoint : String
  ExtEndpoint : String
  Port : String
  ProxyURL : String
  WSProxyURL : String

/-- The JSON body of an HTTP response. -/
inductive Body where
  /-- `gin.H` with the key `"error"` and a fixed text. -/
  | error (msg : String)
  /-- `gin.H` with the key `"error"` and the text of `BindJSON`'s error. -/
  | bindError
  /-- `gin.H` with the key `"error"` and the text of the error `err`. -/
  | failure (err : Error)
  /-- `gin.H` with the key `"message"`. -/
  | message (msg : String)
  /-- `gin.H` with `"chart_data"` and `"monitor_id"`. -/
  | started (chartData : ChartData) (monitorID : String)

/-- An HTTP response: status code and body. -/
structure Response where
  status : Nat
  body : Body

/-- The server: every `*MarketAnalyzer` constructed so far (an engine's address is
its index), `registry.analyzers`, `registry.mu`, the goroutines started with
`go ma.RunMonitor(cycle)` (engine address and cycle), and the package-level
variables of the analyzer package. -/
structure Server where
  engines : List MarketAnalyzer
  analyzers : GoMap Nat
  registryLocked : Bool
  monitors : List (Nat × String)
  globals : Globals

/-- The request body of `POST /api/monitor`. -/
structure MonitorRequest where
  Symbol : String
  Intervals : List String
  Cycle : String

/-- The keys of the map literal `validIntervals`, line 93. -/
def validIntervals : List String := ["1m", "5m", "15m", "1h", "4h", "1d"]

/-- The loop of lines 94-100: the first requested interval that is not valid. -/
def firstInvalidInterval : List String → Option String
  | [] => none
  | interval :: rest =>
    if interval ∈ validIntervals then firstInvalidInterval rest else some interval

/-- Ten seconds in nanoseconds, `10*time.Second`. -/
def tenSeconds : Int := 10 * 1000000000

/-- Lines 101-109: the cycle the monitor runs with, or `none` when the request is
refused. -/
def checkCycle (lib : Library) (cycle : String) : Option String :=
  let cycle₁ := if cycle = "" then "30s" else cycle
  match lib.ParseDuration cycle₁ with
  | none => none
  | some duration => if duration < tenSeconds then none else some cycle₁

/-- The handler of `POST /api/monitor`, lines 70-138.  `req` is `none` when
`BindJSON` fails; `monitorID` is the string `uuid.New()` gives. -/
def startMonitor (lib : Library) (cfg : Config) (ex : Exchange) (rc : RangeChoice)
    (monitorID : String) (req : Option MonitorRequest) (srv : Server) :
    Server × Exit Response :=
  match req with
  | none => (srv, Exit.ret { status := 400, body := Body.bindError })
  | some req =>
    if req.Symbol = "" then
      (srv, Exit.ret { status := 400, body := Body.error "symbol is required" })
    else if req.Intervals.length = 0 then
      (srv, Exit.ret { status := 400, body := Body.error "intervals are required" })
    else
      match firstInvalidInterval req.Intervals with
      | some interval =>
        (srv, Exit.ret { status := 400, body := Body.error ("invalid interval: " ++ interval) })
      | none =>
        match checkCycle lib req.Cycle with
        | none =>
          (srv, Exit.ret { status := 400, body := Body.error "cycle must be at least 10s" })
        | some cycle =>
          let ma := NewMarketAnalyzer req.Symbol req.Intervals cfg.AIEndpoint
          let addr := srv.engines.length
          match ConnectWebSocket lib ex ma with
          | (ma₁, Exit.ret (some err)) =>
            ({ srv with engines := srv.engines ++ [ma₁] },
              Exit.ret { status := 500, body := Body.failure err })
          | (ma₁, Exit.panicked) => ({ srv with engines := srv.engines ++ [ma₁] }, Exit.panicked)
          | (ma₁, Exit.blocked) => ({ srv with engines := srv.engines ++ [ma₁] }, Exit.blocked)
          | (ma₁, Exit.ret none) =>
            if srv.registryLocked then
              ({ srv with engines := srv.engines ++ [ma₁] }, Exit.blocked)
            else
              let analyzers₁ := srv.analyzers.set monitorID addr
              let monitors₁ := srv.monitors ++ [(addr, cycle)]
              match GenerateChartData ma₁ (rc.klines ma₁.klines) with
              | (ma₂, Exit.ret chartData) =>
                ({ srv with engines := srv.engines ++ [ma₂], analyzers := analyzers₁,
                            monitors := monitors₁ },
                  Exit.ret { status := 200, body := Body.started chartData monitorID })
              | (ma₂, Exit.panicked) =>
                ({ srv with engines := srv.engines ++ [ma₂], analyzers := analyzers₁,
                            monitors := monitors₁ }, Exit.panicked)
              | (ma₂, Exit.blocked) =>
                ({ srv with engines := srv.engines ++ [ma₂], analyzers := analyzers₁,
                            monitors := monitors₁ }, Exit.blocked)

/-- The handler of `POST /api/monitor/stop`, lines 140-164.  `monitorID` is `none`
when `BindJSON` fails. -/
def stopMonitor (monitorID : Option String) (srv : Server) : Server × Exit Response :=
  match monitorID with
  | none => (srv, Exit.ret { status := 400, body := Body.bindError })
  | some monitorID =>
    if srv.registryLocked then (srv, Exit.blocked)
    else
      match srv.analyzers.get monitorID with
      | some addr =>
        ({ srv with engines := srv.engines.modify MarketAnalyzer.Stop addr,
                    analyzers := srv.analyzers.delete monitorID },
          Exit.ret { status := 200, body := Body.message "Monitoring stopped" })
      | none => (srv, Exit.ret { status := 404, body := Body.error "monitor not found" })

/-! ## Sample inputs -/

/-- A kline opening at `t`. -/
def sampleKline (t : Nat) : Kline :=
  { OpenTime := t, Open := "100.0", High := "101.0", Low := "99.0", Close := "100.5",
    Volume := "12.0", CloseTime := t + 59 }

/-- A trade record with aggregate id `i`. -/
def sampleTrade (i : Nat) : Trade :=
  { fields := [("a", Interface.float64 ⟨i⟩), ("p", Interface.string "100.0")] }

/-- An engine for `BTCUSDT` holding 25 klines for `15m`, 3 for `1h`, two bids,
one ask and 60 trades, its lock free. -/
def sampleAnalyzer : MarketAnalyzer :=
  { aiEndpoint := "manual"
    symbol := "BTCUSDT"
    intervals := ["15m", "1h"]
    orderBook :=
      { LastUpdateID := 7
        Bids := (GoMap.empty.set "100.10" ⟨1⟩).set "100.00" ⟨2⟩
        Asks := GoMap.empty.set "100.20" ⟨3⟩ }
    klines :=
      (GoMap.empty.set "15m" ((List.range 25).map sampleKline)).set "1h"
        ((List.range 3).map sampleKline)
    trades := (List.range 60).map sampleTrade
    sentiment := "neutral"
    cancelled := false
    muLocked := false
    latestChartData := none }

/-- The sample engine configured with an endpoint other than `"manual"`. -/
def sampleUnsupported : MarketAnalyzer :=
  { sampleAnalyzer with aiEndpoint := "https://ai.example/v1" }

/-- Package-level state with one pending prompt, its lock free. -/
def sampleGlobals : Globals :=
  { pendingPrompts := GoMap.empty.set "older-id" "older prompt", promptsMuLocked := false }

/-- A klines row as the exchange sends it, opening at `t`. -/
def sampleRow (t : Nat) : List Interface :=
  [Interface.float64 ⟨t⟩, Interface.string "100.0", Interface.string "101.0",
    Interface.string "99.0", Interface.string "100.5", Interface.string "12.0",
    Interface.float64 ⟨t + 59⟩]

/-- An exchange that answers every request; the second bid level carries the
quantity text `"abc"`. -/
def sampleExchange : Exchange :=
  { klines := fun _ _ => HttpResult.decoded [sampleRow 1, sampleRow 2]
    depth := HttpResult.decoded
      { LastUpdateID := 42, Bids := [("100.00", "1.5"), ("99.90", "abc")],
        Asks := [("100.10", "2")] }
    trades := HttpResult.decoded [sampleTrade 1] }

/-- The sample exchange with the trades request failing. -/
def sampleExchangeNoTrades : Exchange :=
  { sampleExchange with trades := HttpResult.fetchFailed }

/-- Every `range` loop visits its map in key order. -/
def sampleChoice : RangeChoice :=
  { klines := RangeOrder.sortedOrder, bids := RangeOrder.sortedOrder,
    asks := RangeOrder.sortedOrder }

/-- A configuration with the `"manual"` endpoint. -/
def sampleConfig : Config :=
  { AIEndpoint := "manual", ExtEndpoint := "", Port := "8080", ProxyURL := "", WSProxyURL := "" }

/-- A server with two engines, registered as `mon-1` (address 0) and `mon-2`
(address 1). -/
def sampleServer : Server :=
  { engines := [sampleAnalyzer, sampleUnsupported]
    analyzers := (GoMap.empty.set "mon-1" 0).set "mon-2" 1
    registryLocked := false
    monitors := [(0, "30s"), (1, "10s")]
    globals := sampleGlobals }

/-- A start request for `BTCUSDT` on two allowed intervals with the given cycle. -/
def sampleRequest (cycle : String) : MonitorRequest :=
  { Symbol := "BTCUSDT", Intervals := ["15m", "1h"], Cycle := cycle }

/-- The sample exchange a cycle later: the trades request still fails and the depth
body carries the next update id. -/
def sampleExchangeLater : Exchange :=
  { sampleExchangeNoTrades with
    depth := HttpResult.decoded { LastUpdateID := 43, Bids := [("100.00", "2")], Asks := [] } }

/-- The sample exchange with a klines body whose second row has two elements only. -/
def sampleExchangeShortRow : Exchange :=
  { sampleExchange with
    klines := fun _ _ => HttpResult.decoded
      [sampleRow 1, [Interface.float64 ⟨2⟩, Interface.string "100.0"]] }

/-- The sample exchange with a klines body whose first row carries its open time as
a string. -/
def sampleExchangeWrongType : Exchange :=
  { sampleExchange with
    klines := fun _ _ => HttpResult.decoded
      [[Interface.string "1700000000000", Interface.string "100.0", Interface.string "101.0",
        Interface.string "99.0", Interface.string "100.5", Interface.string "12.0",
        Interface.float64 ⟨60⟩]] }

/-- Whether the bit pattern is a finite number: the exponent field is not all ones. -/
def Float64.isFinite (f : Float64) : Bool :=
  (f.bits / 2 ^ 52) % 2048 != 2047

/-- Library functions for the sample runs: the marshalled texts only name their
input, and the order book is marshalled only when every quantity is finite, as
`encoding/json` does; `ParseFloat` accepts `"1.5"`, `"2"` and `"NaN"`, gives positive
infinity with a range error on `"1e999"`, and fails with value zero on any other
text; `ParseDuration` knows whole seconds written as digits followed by `s`. -/
def sampleLibrary : Library :=
  { marshalKlines := fun m => String.intercalate "," (m.entries.map Prod.fst)
    marshalOrderBook := fun bids asks =>
      if (bids.entries ++ asks.entries).all (fun e => e.2.isFinite) then
        some (String.intercalate "," (bids.entries.map Prod.fst) ++ "|" ++
          String.intercalate "," (asks.entries.map Prod.fst))
      else none
    marshalTrades := fun trades => toString trades.length
    sprintfPrompt := fun symbol intervals klinesJSON orderBookJSON tradesJSON sentiment
        analysisType cycle =>
      String.intercalate ";" [symbol, String.intercalate "," intervals, klinesJSON,
        orderBookJSON, tradesJSON, sentiment, analysisType, cycle]
    marshalPrompt := fun promptStr => some ("prompt:" ++ promptStr)
    ParseFloat := fun s =>
      if s = "1.5" then (⟨0x3FF8000000000000⟩, true)
      else if s = "2" then (⟨0x4000000000000000⟩, true)
      else if s = "NaN" then (⟨0x7FF8000000000001⟩, true)
      else if s = "1e999" then (⟨0x7FF0000000000000⟩, false)
      else (⟨0⟩, false)
    toInt64 := fun f => f.bits
    ParseDuration := fun s =>
      match s.data.reverse with
      | 's' :: digits =>
        if digits ≠ [] ∧ digits.all Char.isDigit then
          some (((digits.reverse.foldl (fun n c => 10 * n + (c.toNat - 48)) 0 : Nat) : Int)
            * 1000000000)
        else none
      | _ => none }

/-- The sample exchange with a depth body whose one bid level carries the quantity
text `"1e999"` and whose one ask level carries `"NaN"`. -/
def sampleExchangeOverflow : Exchange :=
  { sampleExchange with
    depth := HttpResult.decoded
      { LastUpdateID := 44, Bids := [("100.00", "1e999")], Asks := [("100.10", "NaN")] } }

/-- The sample engine after one `FetchRealtimeData` call against `sampleExchange`. -/
def sampleAnalyzerFetched : MarketAnalyzer :=
  (FetchRealtimeData sampleLibrary sampleExchange sampleAnalyzer).1

/-- The sample engine after one `FetchRealtimeData` call against
`sampleExchangeOverflow`. -/
def sampleAnalyzerOverflow : MarketAnalyzer :=
  (FetchRealtimeData sampleLibrary sampleExchangeOverflow sampleAnalyzer).1

/-- The loop of the sample engine, started with the cycle `"10s"`. -/
def sampleMonitor : Monitor :=
  RunMonitor.start sampleLibrary "10s" sampleAnalyzer sampleGlobals

/-- What the sample runs look at: cancellation, the loop's state, the order book's
update id and the number of klines stored for `15m`. -/
def Monitor.view (m : Monitor) : Bool × LoopState × Int × Option Nat :=
  (m.ma.cancelled, m.loop, m.ma.orderBook.LastUpdateID,
    (m.ma.klines.get "15m").map List.length)

/-! ## Facts about maps, visiting orders and truncation -/

theorem ltCodes_irrefl (a : List Nat) : ltCodes a a = false := by
  induction a with
  | nil => rfl
  | cons x xs ih => simp [ltCodes, ih]

theorem keyLt_irrefl (a : String) : ¬ keyLt a a := by
  simp [keyLt, ltCodes_irrefl]

theorem keyLt_ne {a b : String} (h : keyLt a b) : a ≠ b := by
  rintro rfl
  exact keyLt_irrefl a h

theorem lookupEntry_insertEntry_self {ν : Type} (k : String) (v : ν) :
    ∀ (l : List (String × ν)), lookupEntry k (insertEntry k v l) = some v
  | [] => by simp [insertEntry, lookupEntry]
  | x :: rest => by
    unfold insertEntry
    split_ifs with h₁ h₂
    · simp [lookupEntry]
    · simp [lookupEntry]
    · simp [lookupEntry, h₂, lookupEntry_insertEntry_self k v rest]

theorem lookupEntry_insertEntry_ne {ν : Type} {k k' : String} (v : ν) (hk : k' ≠ k) :
    ∀ (l : List (String × ν)), lookupEntry k' (insertEntry k v l) = lookupEntry k' l
  | [] => by simp [insertEntry, lookupEntry, hk]
  | x :: rest => by
    unfold insertEntry
    split_ifs with h₁ h₂
    · simp [lookupEntry, hk]
    · simp [lookupEntry, hk, ← h₂]
    · simp [lookupEntry, lookupEntry_insertEntry_ne v hk rest]

theorem lookupEntry_eraseEntry_self {ν : Type} (k : String) :
    ∀ (l : List (String × ν)), lookupEntry k (eraseEntry k l) = none
  | [] => rfl
  | x :: rest => by
    have ih := lookupEntry_eraseEntry_self k rest
    unfold eraseEntry at ih ⊢
    by_cases hx : x.1 = k
    · simpa [List.filter_cons, hx] using ih
    · have hx' : ¬ k = x.1 := fun h => hx h.symm
      simpa [List.filter_cons, hx, lookupEntry, hx'] using ih

theorem lookupEntry_eraseEntry_ne {ν : Type} {k k' : String} (hk : k' ≠ k) :
    ∀ (l : List (String × ν)), lookupEntry k' (eraseEntry k l) = lookupEntry k' l
  | [] => rfl
  | x :: rest => by
    have ih := lookupEntry_eraseEntry_ne hk rest
    unfold eraseEntry at ih ⊢
    by_cases hx : x.1 = k
    · simpa [List.filter_cons, hx, lookupEntry, hk] using ih
    · by_cases hx' : k' = x.1
      · simp [List.filter_cons, hx, lookupEntry, hx']
      · simpa [List.filter_cons, hx, lookupEntry, hx'] using ih

theorem lookupEntry_eq_some_iff {ν : Type} {k : String} {v : ν} :
    ∀ {l : List (String × ν)}, KeySorted l → (lookupEntry k l = some v ↔ (k, v) ∈ l)
  | [], _ => by simp [lookupEntry]
  | x :: rest, h => by
    have hx := List.pairwise_cons.mp h
    unfold lookupEntry
    split_ifs with h₁
    · constructor
      · intro hv
        have : x = (k, v) := Prod.ext h₁.symm (Option.some.inj hv)
        exact this ▸ List.mem_cons_self _ _
      · intro hm
        rcases List.mem_cons.mp hm with hm | hm
        · rw [← hm]
        · exact absurd h₁.symm (keyLt_ne (hx.1 _ hm))
    · rw [lookupEntry_eq_some_iff hx.2]
      constructor
      · exact List.mem_cons_of_mem _
      · intro hm
        rcases List.mem_cons.mp hm with hm | hm
        · exact absurd (congrArg Prod.fst hm) h₁
        · exact hm

theorem keySorted_nodup {ν : Type} {l : List (String × ν)} (h : KeySorted l) : l.Nodup :=
  List.Pairwise.imp (fun hab hEq => keyLt_ne hab (congrArg Prod.fst hEq)) h

theorem keySorted_eq_of_perm {ν : Type} {l₁ l₂ : List (String × ν)}
    (hp : l₁.Perm l₂) (h₁ : KeySorted l₁) (h₂ : KeySorted l₂) : l₁ = l₂ := by
  haveI : IsAntisymm (String × ν) (fun a b => keyLt a.1 b.1) :=
    ⟨fun a b hab hba => absurd (keyLt_trans hab hba) (keyLt_irrefl _)⟩
  exact List.eq_of_perm_of_sorted hp h₁ h₂

theorem keySorted_ext {ν : Type} {l₁ l₂ : List (String × ν)}
    (h₁ : KeySorted l₁) (h₂ : KeySorted l₂)
    (h : ∀ k, lookupEntry k l₁ = lookupEntry k l₂) : l₁ = l₂ := by
  refine keySorted_eq_of_perm ?_ h₁ h₂
  refine (List.perm_ext_iff_of_nodup (keySorted_nodup h₁) (keySorted_nodup h₂)).mpr ?_
  rintro ⟨k, v⟩
  rw [← lookupEntry_eq_some_iff h₁, ← lookupEntry_eq_some_iff h₂, h k]

theorem length_insertEntry {ν : Type} {k : String} (v : ν) :
    ∀ {l : List (String × ν)}, lookupEntry k l = none →
      (insertEntry k v l).length = l.length + 1
  | [], _ => rfl
  | x :: rest, h => by
    unfold lookupEntry at h
    split_ifs at h with h₁
    unfold insertEntry
    split_ifs with h₂
    · rfl
    · simp [length_insertEntry v h]

theorem lookupEntry_cons {ν : Type} (k : String) (x : String × ν) (rest : List (String × ν)) :
    lookupEntry k (x :: rest) = if k = x.1 then some x.2 else lookupEntry k rest := rfl

theorem lookupEntry_eq_none_of_ne {ν : Type} {k : String} :
    ∀ {l : List (String × ν)}, (∀ e ∈ l, e.1 ≠ k) → lookupEntry k l = none
  | [], _ => rfl
  | x :: rest, h => by
    have hx : ¬ k = x.1 := fun hk => h x (List.mem_cons_self _ _) hk.symm
    simp only [lookupEntry, hx, if_false]
    exact lookupEntry_eq_none_of_ne (fun e he => h e (List.mem_cons_of_mem _ he))

theorem lookupEntry_some_iff_mem {ν : Type} {k : String} {v : ν} :
    ∀ {l : List (String × ν)}, l.Pairwise (fun a b => a.1 ≠ b.1) →
      (lookupEntry k l = some v ↔ (k, v) ∈ l)
  | [], _ => by simp [lookupEntry]
  | x :: rest, h => by
    have hx := List.pairwise_cons.mp h
    unfold lookupEntry
    split_ifs with h₁
    · constructor
      · intro hv
        have : x = (k, v) := Prod.ext h₁.symm (Option.some.inj hv)
        exact this ▸ List.mem_cons_self _ _
      · intro hm
        rcases List.mem_cons.mp hm with hm | hm
        · rw [← hm]
        · exact absurd h₁.symm (hx.1 _ hm)
    · rw [lookupEntry_some_iff_mem hx.2]
      constructor
      · exact List.mem_cons_of_mem _
      · intro hm
        rcases List.mem_cons.mp hm with hm | hm
        · exact absurd (congrArg Prod.fst hm) h₁
        · exact hm

theorem keySorted_distinct {ν : Type} {l : List (String × ν)} (h : KeySorted l) :
    l.Pairwise (fun a b => a.1 ≠ b.1) :=
  List.Pairwise.imp (fun hab => keyLt_ne hab) h

theorem RangeOrder.distinct {ν : Type} {m : GoMap ν} (order : RangeOrder m) :
    order.visit.Pairwise (fun a b => a.1 ≠ b.1) :=
  (List.Perm.pairwise_iff (fun hxy => Ne.symm hxy) order.perm).mpr (keySorted_distinct m.sorted)

theorem RangeOrder.lookup_visit {ν : Type} {m : GoMap ν} (order : RangeOrder m) (k : String) :
    lookupEntry k order.visit = m.get k := by
  apply Option.ext
  intro v
  simp only [Option.mem_def, GoMap.get]
  rw [lookupEntry_some_iff_mem order.distinct,
    lookupEntry_some_iff_mem (keySorted_distinct m.sorted)]
  exact order.perm.mem_iff

theorem GoMap.ext {ν : Type} {m₁ m₂ : GoMap ν} (h : ∀ k, m₁.get k = m₂.get k) : m₁ = m₂ := by
  cases m₁ with
  | mk e₁ s₁ =>
    cases m₂ with
    | mk e₂ s₂ =>
      have : e₁ = e₂ := keySorted_ext s₁ s₂ h
      subst this
      rfl

theorem GoMap.get_empty {ν : Type} (k : String) : (GoMap.empty : GoMap ν).get k = none := rfl

theorem GoMap.get_set_self {ν : Type} (m : GoMap ν) (k : String) (v : ν) :
    (m.set k v).get k = some v :=
  lookupEntry_insertEntry_self k v m.entries

theorem GoMap.get_set_ne {ν : Type} (m : GoMap ν) {k k' : String} (v : ν) (h : k' ≠ k) :
    (m.set k v).get k' = m.get k' :=
  lookupEntry_insertEntry_ne v h m.entries

theorem GoMap.get_delete_self {ν : Type} (m : GoMap ν) (k : String) :
    (m.delete k).get k = none :=
  lookupEntry_eraseEntry_self k m.entries

theorem GoMap.get_delete_ne {ν : Type} (m : GoMap ν) {k k' : String} (h : k' ≠ k) :
    (m.delete k).get k' = m.get k' :=
  lookupEntry_eraseEntry_ne h m.entries

theorem GoMap.get_some_iff_mem {ν : Type} (m : GoMap ν) (k : String) (v : ν) :
    m.get k = some v ↔ (k, v) ∈ m.entries :=
  lookupEntry_some_iff_mem (keySorted_distinct m.sorted)

/-- Storing bindings with distinct keys one after the other: a key among them ends
up with its (transformed) value, any other key keeps what it had. -/
theorem GoMap.get_foldl_set {ν μ : Type} (f : ν → μ) (k : String) :
    ∀ (l : List (String × ν)) (acc : GoMap μ), l.Pairwise (fun a b => a.1 ≠ b.1) →
      (l.foldl (fun acc e => acc.set e.1 (f e.2)) acc).get k =
        (lookupEntry k l).elim (acc.get k) (fun v => some (f v))
  | [], acc, _ => rfl
  | x :: rest, acc, h => by
    have hx := List.pairwise_cons.mp h
    rw [List.foldl_cons, GoMap.get_foldl_set f k rest _ hx.2, lookupEntry_cons]
    by_cases h₁ : k = x.1
    · have hnone : lookupEntry k rest = none :=
        lookupEntry_eq_none_of_ne (fun e he => h₁ ▸ (hx.1 e he).symm)
      rw [hnone, if_pos h₁, h₁]
      exact GoMap.get_set_self acc x.1 (f x.2)
    · rw [if_neg h₁]
      cases lookupEntry k rest with
      | some v => rfl
      | none => exact GoMap.get_set_ne acc (f x.2) h₁

/-- A `range` loop that stores a transformed copy of every binding in a fresh map
builds the same map whatever the visiting order. -/
theorem GoMap.get_rangeFold {ν μ : Type} {m : GoMap ν} (order : RangeOrder m) (f : ν → μ)
    (k : String) :
    (order.visit.foldl (fun acc e => acc.set e.1 (f e.2)) GoMap.empty).get k =
      (m.get k).map f := by
  rw [GoMap.get_foldl_set f k order.visit GoMap.empty order.distinct, order.lookup_visit]
  cases m.get k <;> rfl

theorem GoMap.len_foldl_set {ν : Type} :
    ∀ (l : List (String × ν)) (acc : GoMap ν), l.Pairwise (fun a b => a.1 ≠ b.1) →
      (∀ e ∈ l, acc.get e.1 = none) →
      (l.foldl (fun acc e => acc.set e.1 e.2) acc).len = acc.len + l.length
  | [], acc, _, _ => rfl
  | x :: rest, acc, h, hacc => by
    have hx := List.pairwise_cons.mp h
    rw [List.foldl_cons, GoMap.len_foldl_set rest _ hx.2]
    · have hlen : (acc.set x.1 x.2).len = acc.len + 1 :=
        length_insertEntry x.2 (hacc x (List.mem_cons_self _ _))
      rw [hlen, List.length_cons]
      omega
    · intro e he
      rw [GoMap.get_set_ne acc x.2 (hx.1 e he).symm]
      exact hacc e (List.mem_cons_of_mem _ he)

theorem lastN_eq_drop {α : Type} (n : Nat) (xs : List α) :
    lastN n xs = xs.drop (xs.length - min n xs.length) := by
  unfold lastN
  split_ifs with h
  · rw [Nat.min_eq_left (Nat.le_of_lt h)]
  · rw [Nat.min_eq_right (Nat.le_of_not_lt h), Nat.sub_self, List.drop_zero]

theorem length_lastN {α : Type} (n : Nat) (xs : List α) :
    (lastN n xs).length = min n xs.length := by
  rw [lastN_eq_drop, List.length_drop]
  omega

theorem lastN_eq_self {α : Type} {n : Nat} {xs : List α} (h : xs.length ≤ n) :
    lastN n xs = xs := by
  unfold lastN
  rw [if_neg (Nat.not_lt.mpr h)]

theorem limitSide_fold (visit : List (String × Float64)) :
    ∀ (acc : GoMap Float64) (count : Nat),
      (visit.foldl
        (fun (acc : GoMap Float64 × Nat) e =>
          if acc.2 < 50 then (acc.1.set e.1 e.2, acc.2 + 1) else acc)
        (acc, count)).1 =
      (visit.take (50 - count)).foldl (fun m e => m.set e.1 e.2) acc := by
  induction visit with
  | nil => intro acc count; simp
  | cons x rest ih =>
    intro acc count
    rw [List.foldl_cons]
    by_cases hc : count < 50
    · have h50 : 50 - count = (50 - (count + 1)) + 1 := by omega
      simp only [hc, if_true]
      rw [ih, h50, List.take_succ_cons, List.foldl_cons]
    · have h50 : 50 - count = 0 := by omega
      simp only [hc, if_false]
      rw [ih, h50]
      simp

theorem limitSide_eq (visit : List (String × Float64)) :
    limitSide visit = (visit.take 50).foldl (fun m e => m.set e.1 e.2) GoMap.empty :=
  limitSide_fold visit GoMap.empty 0

theorem limitSide_get_some {side : GoMap Float64} (order : RangeOrder side)
    {price : String} {qty : Float64} (h : (limitSide order.visit).get price = some qty) :
    side.get price = some qty := by
  have hd : (order.visit.take 50).Pairwise (fun a b => a.1 ≠ b.1) :=
    List.Pairwise.sublist (List.take_sublist 50 order.visit) order.distinct
  have hget := GoMap.get_foldl_set id price (order.visit.take 50) GoMap.empty hd
  rw [limitSide_eq] at h
  have h' : (lookupEntry price (order.visit.take 50)).elim
      ((GoMap.empty : GoMap Float64).get price) (fun v => some (id v)) = some qty :=
    hget.symm.trans h
  cases hl : lookupEntry price (order.visit.take 50) with
  | none => rw [hl] at h'; exact absurd h' (by simp [GoMap.get_empty])
  | some v =>
    rw [hl] at h'
    have hv : v = qty := Option.some.inj h'
    have hm : (price, v) ∈ order.visit.take 50 := (lookupEntry_some_iff_mem hd).mp hl
    have hm' : (price, v) ∈ side.entries :=
      order.perm.mem_iff.mp ((List.take_sublist 50 order.visit).subset hm)
    exact hv ▸ (side.get_some_iff_mem price v).mpr hm'

theorem limitSide_len {side : GoMap Float64} (order : RangeOrder side) :
    (limitSide order.visit).len = min 50 side.len := by
  have hd : (order.visit.take 50).Pairwise (fun a b => a.1 ≠ b.1) :=
    List.Pairwise.sublist (List.take_sublist 50 order.visit) order.distinct
  rw [limitSide_eq, GoMap.len_foldl_set _ GoMap.empty hd (fun e _ => GoMap.get_empty e.1),
    List.length_take, order.perm.length_eq]
  simp [GoMap.len, GoMap.empty]

theorem limitSide_full {side : GoMap Float64} (order : RangeOrder side) (h : side.len ≤ 50) :
    limitSide order.visit = side := by
  have hlen : order.visit.length ≤ 50 := by rw [order.perm.length_eq]; exact h
  apply GoMap.ext
  intro k
  rw [limitSide_eq, List.take_of_length_le hlen]
  have := GoMap.get_rangeFold order id k
  simpa using this

theorem limitedKlines_eq {klines : GoMap (List Kline)} (order order' : RangeOrder klines)
    (n : Nat) :
    order'.visit.foldl (fun acc e => acc.set e.1 (lastN n e.2)) GoMap.empty =
      order.visit.foldl (fun acc e => acc.set e.1 (lastN n e.2)) GoMap.empty := by
  apply GoMap.ext
  intro k
  rw [GoMap.get_rangeFold order' (lastN n) k, GoMap.get_rangeFold order (lastN n) k]

/-! ## C1: chart view klines -/

/-- C1. With the engine's lock free, `GenerateChartData` returns a chart view and
leaves the engine as it was; under `"kline"` every stored interval holds exactly the
last `min 20 (len ks)` of its klines `ks` in their order (so never more than 20, and
all of `ks` when there are at most 20) and no other interval appears, whatever the
order the `range` loop visits the map in; `"depth"` holds the stored bids and asks. -/
theorem chart_klines_last_twenty (ma : MarketAnalyzer) (order : RangeOrder ma.klines)
    (hfree : ma.muLocked = false) :
    ∃ chart : ChartData,
      GenerateChartData ma order = (ma, Exit.ret chart) ∧
      (∀ interval ks, ma.klines.get interval = some ks →
        chart.kline.get interval = some (ks.drop (ks.length - min 20 ks.length)) ∧
        (ks.drop (ks.length - min 20 ks.length)).length = min 20 ks.length ∧
        (ks.drop (ks.length - min 20 ks.length)).length ≤ 20 ∧
        (ks.length ≤ 20 → chart.kline.get interval = some ks)) ∧
      (∀ interval, ma.klines.get interval = none → chart.kline.get interval = none) ∧
      chart.bids = ma.orderBook.Bids ∧ chart.asks = ma.orderBook.Asks := by
  refine ⟨{ kline := order.visit.foldl (fun acc e => acc.set e.1 (lastN 20 e.2)) GoMap.empty
            bids := ma.orderBook.Bids, asks := ma.orderBook.Asks }, ?_, ?_, ?_, rfl, rfl⟩
  · cases ma
    simp only at hfree
    subst hfree
    rfl
  · intro interval ks hks
    have hget := GoMap.get_rangeFold order (lastN 20) interval
    rw [hks] at hget
    have hlen : (ks.drop (ks.length - min 20 ks.length)).length = min 20 ks.length := by
      rw [← lastN_eq_drop, length_lastN]
    refine ⟨by rw [hget, Option.map_some', lastN_eq_drop], hlen, ?_, ?_⟩
    · rw [hlen]; exact Nat.min_le_left _ _
    · intro hle
      rw [hget, Option.map_some', lastN_eq_self hle]
  · intro interval hnone
    have hget := GoMap.get_rangeFold order (lastN 20) interval
    rw [hnone] at hget
    exact hget

/-- C1 at the sample engine: 25 klines are stored for `15m`, the lock is free. -/
theorem chart_klines_last_twenty_witness :
    sampleAnalyzer.muLocked = false ∧
    ∃ chart : ChartData,
      GenerateChartData sampleAnalyzer (RangeOrder.reverseOrder sampleAnalyzer.klines) =
        (sampleAnalyzer, Exit.ret chart) ∧
      (∀ interval ks, sampleAnalyzer.klines.get interval = some ks →
        chart.kline.get interval = some (ks.drop (ks.length - min 20 ks.length)) ∧
        (ks.drop (ks.length - min 20 ks.length)).length = min 20 ks.length ∧
        (ks.drop (ks.length - min 20 ks.length)).length ≤ 20 ∧
        (ks.length ≤ 20 → chart.kline.get interval = some ks)) ∧
      (∀ interval, sampleAnalyzer.klines.get interval = none →
        chart.kline.get interval = none) ∧
      chart.bids = sampleAnalyzer.orderBook.Bids ∧ chart.asks = sampleAnalyzer.orderBook.Asks :=
  ⟨rfl, chart_klines_last_twenty sampleAnalyzer
    (RangeOrder.reverseOrder sampleAnalyzer.klines) rfl⟩

/-! ## C2: prompt klines and trades -/

/-- C2. With the engine's lock free, `generatePrompt` leaves the engine as it was
and returns the template filled with `json.Marshal` of a klines map and of a trades
list, where the klines map binds every stored interval to exactly the last
`min 10 n` of its `n` klines in their order and binds no other interval, and the
trades list is exactly the last `min 50 m` of the `m` stored trades in their order;
so never more than 10 klines per interval nor more than 50 trades go into the
prompt, and always the most recent ones, whatever the order the maps are visited
in. -/
theorem prompt_klines_trades_recent (lib : Library) (ma : MarketAnalyzer)
    (ok : RangeOrder ma.klines) (ob : RangeOrder ma.orderBook.Bids)
    (oa : RangeOrder ma.orderBook.Asks) (analysisType cycle : String)
    (startTime endTime : Int) (hfree : ma.muLocked = false) :
    ∃ (limitedKlines : GoMap (List Kline)) (orderBookJSON : String),
      generatePrompt lib ma ok ob oa analysisType cycle startTime endTime =
        (ma, Exit.ret (lib.sprintfPrompt ma.symbol ma.intervals
          (lib.marshalKlines limitedKlines) orderBookJSON
          (lib.marshalTrades (ma.trades.drop (ma.trades.length - min 50 ma.trades.length)))
          ma.sentiment analysisType cycle)) ∧
      (∀ interval, limitedKlines.get interval =
        (ma.klines.get interval).map (fun ks => ks.drop (ks.length - min 10 ks.length))) ∧
      (∀ interval ks, ma.klines.get interval = some ks →
        (ks.drop (ks.length - min 10 ks.length)).length = min 10 ks.length) ∧
      (∀ interval ks, limitedKlines.get interval = some ks → ks.length ≤ 10) ∧
      (ma.trades.drop (ma.trades.length - min 50 ma.trades.length)).length =
        min 50 ma.trades.length ∧
      (ma.trades.drop (ma.trades.length - min 50 ma.trades.length)).length ≤ 50 := by
  have hdrop : ∀ (n : Nat) (ks : List Kline),
      (ks.drop (ks.length - min n ks.length)).length = min n ks.length := by
    intro n ks
    rw [← lastN_eq_drop, length_lastN]
  have hget : ∀ interval, (promptData ma ok ob oa).limitedKlines.get interval =
      (ma.klines.get interval).map (fun ks => ks.drop (ks.length - min 10 ks.length)) := by
    intro interval
    have h := GoMap.get_rangeFold ok (lastN 10) interval
    have hfun : lastN 10 = fun ks : List Kline => ks.drop (ks.length - min 10 ks.length) :=
      funext (lastN_eq_drop 10)
    rw [← hfun]
    exact h
  have htrades : (ma.trades.drop (ma.trades.length - min 50 ma.trades.length)).length =
      min 50 ma.trades.length := by
    rw [← lastN_eq_drop, length_lastN]
  refine ⟨(promptData ma ok ob oa).limitedKlines,
    (lib.marshalOrderBook (promptData ma ok ob oa).limitedBids
      (promptData ma ok ob oa).limitedAsks).getD "", ?_, hget, fun _ ks _ => hdrop 10 ks, ?_,
    htrades, ?_⟩
  · rw [← lastN_eq_drop]
    cases ma
    simp only at hfree
    subst hfree
    rfl
  · intro interval ks hks
    rw [hget interval] at hks
    cases hstored : ma.klines.get interval with
    | none => rw [hstored] at hks; cases hks
    | some stored =>
      rw [hstored] at hks
      have hk : stored.drop (stored.length - min 10 stored.length) = ks :=
        Option.some.inj hks
      rw [← hk, hdrop]
      exact Nat.min_le_left _ _
  · rw [htrades]
    exact Nat.min_le_left _ _

/-- C2 at the sample engine, which holds 25 klines for `15m`, 3 for `1h` and 60
trades, its lock free, with the bids visited backwards. -/
theorem prompt_klines_trades_recent_witness :
    sampleAnalyzer.muLocked = false ∧
    ∃ (limitedKlines : GoMap (List Kline)) (orderBookJSON : String),
      generatePrompt sampleLibrary sampleAnalyzer (RangeOrder.sortedOrder _)
          (RangeOrder.reverseOrder _) (RangeOrder.sortedOrder _) "monitor" "continuous" 0 0 =
        (sampleAnalyzer, Exit.ret (sampleLibrary.sprintfPrompt sampleAnalyzer.symbol
          sampleAnalyzer.intervals (sampleLibrary.marshalKlines limitedKlines) orderBookJSON
          (sampleLibrary.marshalTrades (sampleAnalyzer.trades.drop
            (sampleAnalyzer.trades.length - min 50 sampleAnalyzer.trades.length)))
          sampleAnalyzer.sentiment "monitor" "continuous")) ∧
      (∀ interval, limitedKlines.get interval =
        (sampleAnalyzer.klines.get interval).map
          (fun ks => ks.drop (ks.length - min 10 ks.length))) ∧
      (∀ interval ks, sampleAnalyzer.klines.get interval = some ks →
        (ks.drop (ks.length - min 10 ks.length)).length = min 10 ks.length) ∧
      (∀ interval ks, limitedKlines.get interval = some ks → ks.length ≤ 10) ∧
      (sampleAnalyzer.trades.drop
          (sampleAnalyzer.trades.length - min 50 sampleAnalyzer.trades.length)).length =
        min 50 sampleAnalyzer.trades.length ∧
      (sampleAnalyzer.trades.drop
          (sampleAnalyzer.trades.length - min 50 sampleAnalyzer.trades.length)).length ≤ 50 :=
  ⟨rfl, prompt_klines_trades_recent sampleLibrary sampleAnalyzer (RangeOrder.sortedOrder _)
    (RangeOrder.reverseOrder _) (RangeOrder.sortedOrder _) "monitor" "continuous" 0 0 rfl⟩

/-! ## C3: prompt order book -/

/-- C3 as amended. With the engine's lock free and whatever the orders in which
`generatePrompt` visits its maps, the two sides it hands to `json.Marshal` each bind
a price only to the quantity the stored side binds it to and have exactly `min 50 n`
bindings, `n` the number of stored levels, and a side of at most 50 levels is handed
over whole.  What the prompt holds in the place of the order book is the text
`json.Marshal` returns for these two sides, and the empty string when `json.Marshal`
returns an error.  When both sides have at most 50 levels `generatePrompt` and
`GeneratePrompt` give the same result for every choice of visiting orders. -/
theorem prompt_order_book_limited (lib : Library) (ma : MarketAnalyzer)
    (ok : RangeOrder ma.klines) (ob : RangeOrder ma.orderBook.Bids)
    (oa : RangeOrder ma.orderBook.Asks) (analysisType cycle : String)
    (startTime endTime : Int) (hfree : ma.muLocked = false) :
    ∃ (limitedBids limitedAsks : GoMap Float64) (klinesJSON tradesJSON : String),
      generatePrompt lib ma ok ob oa analysisType cycle startTime endTime =
        (ma, Exit.ret (lib.sprintfPrompt ma.symbol ma.intervals klinesJSON
          ((lib.marshalOrderBook limitedBids limitedAsks).getD "") tradesJSON ma.sentiment
          analysisType cycle)) ∧
      (∀ price qty, limitedBids.get price = some qty →
        ma.orderBook.Bids.get price = some qty) ∧
      limitedBids.len = min 50 ma.orderBook.Bids.len ∧
      (∀ price qty, limitedAsks.get price = some qty →
        ma.orderBook.Asks.get price = some qty) ∧
      limitedAsks.len = min 50 ma.orderBook.Asks.len ∧
      (ma.orderBook.Bids.len ≤ 50 → limitedBids = ma.orderBook.Bids) ∧
      (ma.orderBook.Asks.len ≤ 50 → limitedAsks = ma.orderBook.Asks) ∧
      (ma.orderBook.Bids.len ≤ 50 → ma.orderBook.Asks.len ≤ 50 →
        ∀ (ok' : RangeOrder ma.klines) (ob' : RangeOrder ma.orderBook.Bids)
          (oa' : RangeOrder ma.orderBook.Asks),
          generatePrompt lib ma ok' ob' oa' analysisType cycle startTime endTime =
            generatePrompt lib ma ok ob oa analysisType cycle startTime endTime ∧
          GeneratePrompt lib ma ok' ob' oa' = GeneratePrompt lib ma ok ob oa) := by
  refine ⟨(promptData ma ok ob oa).limitedBids, (promptData ma ok ob oa).limitedAsks,
    lib.marshalKlines (promptData ma ok ob oa).limitedKlines,
    lib.marshalTrades (promptData ma ok ob oa).limitedTrades, ?_,
    fun _ _ h => limitSide_get_some ob h, limitSide_len ob,
    fun _ _ h => limitSide_get_some oa h, limitSide_len oa,
    fun h => limitSide_full ob h, fun h => limitSide_full oa h, ?_⟩
  · cases ma
    simp only at hfree
    subst hfree
    rfl
  · intro hb ha ok' ob' oa'
    have hdata : promptData ma ok' ob' oa' = promptData ma ok ob oa := by
      unfold promptData
      rw [limitedKlines_eq ok ok' 10, limitSide_full ob hb, limitSide_full ob' hb,
        limitSide_full oa ha, limitSide_full oa' ha]
    have hgen : ∀ (analysisType cycle : String) (startTime endTime : Int),
        generatePrompt lib ma ok' ob' oa' analysisType cycle startTime endTime =
          generatePrompt lib ma ok ob oa analysisType cycle startTime endTime := by
      intro analysisType cycle startTime endTime
      unfold generatePrompt
      rw [hdata]
    refine ⟨hgen _ _ _ _, ?_⟩
    unfold GeneratePrompt
    rw [hgen]

/-- C3 at the sample engine, which holds two bids and one ask, its lock free, with
the bids visited backwards. -/
theorem prompt_order_book_limited_witness :
    sampleAnalyzer.muLocked = false ∧
    ∃ (limitedBids limitedAsks : GoMap Float64) (klinesJSON tradesJSON : String),
      generatePrompt sampleLibrary sampleAnalyzer (RangeOrder.sortedOrder _)
          (RangeOrder.reverseOrder _) (RangeOrder.sortedOrder _) "monitor" "continuous" 0 0 =
        (sampleAnalyzer, Exit.ret (sampleLibrary.sprintfPrompt sampleAnalyzer.symbol
          sampleAnalyzer.intervals klinesJSON
          ((sampleLibrary.marshalOrderBook limitedBids limitedAsks).getD "") tradesJSON
          sampleAnalyzer.sentiment "monitor" "continuous")) ∧
      (∀ price qty, limitedBids.get price = some qty →
        sampleAnalyzer.orderBook.Bids.get price = some qty) ∧
      limitedBids.len = min 50 sampleAnalyzer.orderBook.Bids.len ∧
      (∀ price qty, limitedAsks.get price = some qty →
        sampleAnalyzer.orderBook.Asks.get price = some qty) ∧
      limitedAsks.len = min 50 sampleAnalyzer.orderBook.Asks.len ∧
      (sampleAnalyzer.orderBook.Bids.len ≤ 50 → limitedBids = sampleAnalyzer.orderBook.Bids) ∧
      (sampleAnalyzer.orderBook.Asks.len ≤ 50 → limitedAsks = sampleAnalyzer.orderBook.Asks) ∧
      (sampleAnalyzer.orderBook.Bids.len ≤ 50 → sampleAnalyzer.orderBook.Asks.len ≤ 50 →
        ∀ (ok' : RangeOrder sampleAnalyzer.klines)
          (ob' : RangeOrder sampleAnalyzer.orderBook.Bids)
          (oa' : RangeOrder sampleAnalyzer.orderBook.Asks),
          generatePrompt sampleLibrary sampleAnalyzer ok' ob' oa' "monitor" "continuous" 0 0 =
            generatePrompt sampleLibrary sampleAnalyzer (RangeOrder.sortedOrder _)
              (RangeOrder.reverseOrder _) (RangeOrder.sortedOrder _) "monitor" "continuous"
              0 0 ∧
          GeneratePrompt sampleLibrary sampleAnalyzer ok' ob' oa' =
            GeneratePrompt sampleLibrary sampleAnalyzer (RangeOrder.sortedOrder _)
              (RangeOrder.reverseOrder _) (RangeOrder.sortedOrder _)) :=
  ⟨rfl, prompt_order_book_limited sampleLibrary sampleAnalyzer (RangeOrder.sortedOrder _)
    (RangeOrder.reverseOrder _) (RangeOrder.sortedOrder _) "monitor" "continuous" 0 0 rfl⟩

/-- C3 as stated fails when a stored quantity is not a finite number.  A fetch whose
depth reply has the one bid level `100.00` with the quantity text `1e999` and the
one ask level `100.10` with the quantity text `NaN` returns no error and stores
positive infinity and a NaN.  Each stored side has one level, so `min 50 n` is 1,
and `generatePrompt` hands both sides whole to `json.Marshal`, which returns an
error; the prompt then holds the empty string in the place of the order book, and
no price level of either side is in it. -/
theorem prompt_order_book_not_embedded :
    FetchRealtimeData sampleLibrary sampleExchangeOverflow sampleAnalyzer =
      (sampleAnalyzerOverflow, Exit.ret none) ∧
    sampleAnalyzerOverflow.muLocked = false ∧
    sampleAnalyzerOverflow.orderBook.Bids.entries = [("100.00", ⟨0x7FF0000000000000⟩)] ∧
    sampleAnalyzerOverflow.orderBook.Asks.entries = [("100.10", ⟨0x7FF8000000000001⟩)] ∧
    min 50 sampleAnalyzerOverflow.orderBook.Bids.len = 1 ∧
    min 50 sampleAnalyzerOverflow.orderBook.Asks.len = 1 ∧
    (promptData sampleAnalyzerOverflow (RangeOrder.sortedOrder _) (RangeOrder.sortedOrder _)
      (RangeOrder.sortedOrder _)).limitedBids.entries = [("100.00", ⟨0x7FF0000000000000⟩)] ∧
    (promptData sampleAnalyzerOverflow (RangeOrder.sortedOrder _) (RangeOrder.sortedOrder _)
      (RangeOrder.sortedOrder _)).limitedAsks.entries = [("100.10", ⟨0x7FF8000000000001⟩)] ∧
    sampleLibrary.marshalOrderBook
      (promptData sampleAnalyzerOverflow (RangeOrder.sortedOrder _) (RangeOrder.sortedOrder _)
        (RangeOrder.sortedOrder _)).limitedBids
      (promptData sampleAnalyzerOverflow (RangeOrder.sortedOrder _) (RangeOrder.sortedOrder _)
        (RangeOrder.sortedOrder _)).limitedAsks = none ∧
    generatePrompt sampleLibrary sampleAnalyzerOverflow (RangeOrder.sortedOrder _)
        (RangeOrder.sortedOrder _) (RangeOrder.sortedOrder _) "monitor" "continuous" 0 0 =
      (sampleAnalyzerOverflow,
        Exit.ret "BTCUSDT;15m,1h;15m,1h;;1;neutral;monitor;continuous") ∧
    generatePrompt sampleLibrary sampleAnalyzer (RangeOrder.sortedOrder _)
        (RangeOrder.sortedOrder _) (RangeOrder.sortedOrder _) "monitor" "continuous" 0 0 =
      (sampleAnalyzer,
        Exit.ret "BTCUSDT;15m,1h;15m,1h;100.00,100.10|100.20;50;neutral;monitor;continuous") :=
  ⟨Prod.ext rfl rfl, rfl, rfl, rfl, rfl, rfl, rfl, rfl, rfl, Prod.ext rfl rfl,
    Prod.ext rfl rfl⟩

/-! ## C4, C5, C6: pending prompts -/

/-- The call `CallAIAnalysis` on an engine whose lock is free takes the lock on line 241 and
then waits for the same lock on line 298, inside `generatePrompt`: it does not
return, nothing is stored, and the engine's lock stays held. -/
theorem CallAIAnalysis_eq_blocked (lib : Library) (analysisID : String) (ma : MarketAnalyzer)
    (ok : RangeOrder ma.klines) (ob : RangeOrder ma.orderBook.Bids)
    (oa : RangeOrder ma.orderBook.Asks) (g : Globals) (hfree : ma.muLocked = false) :
    CallAIAnalysis lib analysisID ma ok ob oa g =
      ({ ma with muLocked := true }, g, Exit.blocked) := by
  unfold CallAIAnalysis GeneratePrompt generatePrompt
  simp [hfree]

/-- C4 (defect in the code). At the sample engine, configured with `"manual"` and
with its lock free, `CallAIAnalysis` does not return an analysis id: it blocks with
the engine's lock held, and `GetPendingPrompt` on the id it drew finds nothing,
where the claim has it return the id with the prompt stored under it. -/
theorem callAIAnalysis_manual_no_id :
    sampleAnalyzer.aiEndpoint = "manual" ∧ sampleAnalyzer.muLocked = false ∧
    sampleGlobals.promptsMuLocked = false ∧
    (CallAIAnalysis sampleLibrary "id-1" sampleAnalyzer (RangeOrder.sortedOrder _)
      (RangeOrder.sortedOrder _) (RangeOrder.sortedOrder _) sampleGlobals).2.2 = Exit.blocked ∧
    (CallAIAnalysis sampleLibrary "id-1" sampleAnalyzer (RangeOrder.sortedOrder _)
      (RangeOrder.sortedOrder _) (RangeOrder.sortedOrder _) sampleGlobals).1.muLocked = true ∧
    GetPendingPrompt "id-1"
      (CallAIAnalysis sampleLibrary "id-1" sampleAnalyzer (RangeOrder.sortedOrder _)
        (RangeOrder.sortedOrder _) (RangeOrder.sortedOrder _) sampleGlobals).2.1 =
      Exit.ret ("", false) :=
  ⟨rfl, rfl, rfl, rfl, rfl, rfl⟩

/-- C5. With the lock of the pending prompts free, `SubmitManualResponse` returns;
afterwards `GetPendingPrompt` on the submitted id reports not found, every other id
is bound as before, and the error returned is exactly the one `SaveReport` gave,
whether or not the id was pending: with no error from `SaveReport` the call answers
with the report id. -/
theorem submit_removes_pending (SaveReport : String → String → Option Error)
    (reportID analysisID responseJSON : String) (g : Globals)
    (hfree : g.promptsMuLocked = false) :
    ∃ (g₁ : Globals) (resp : AnalysisResponse),
      SubmitManualResponse SaveReport reportID analysisID responseJSON g =
        (g₁, Exit.ret (resp, SaveReport reportID responseJSON)) ∧
      GetPendingPrompt analysisID g₁ = Exit.ret ("", false) ∧
      (∀ other, other ≠ analysisID →
        g₁.pendingPrompts.get other = g.pendingPrompts.get other) ∧
      (SaveReport reportID responseJSON = none → resp.ReportID = reportID) := by
  refine ⟨{ pendingPrompts := g.pendingPrompts.delete analysisID, promptsMuLocked := false },
    ?_⟩
  cases hsave : SaveReport reportID responseJSON with
  | none =>
    refine ⟨{ AnalysisID := "", ReportID := reportID }, ?_, ?_, ?_, fun _ => rfl⟩
    · simp [SubmitManualResponse, hfree, hsave]
    · simp [GetPendingPrompt, GoMap.get_delete_self]
    · intro other hne
      exact GoMap.get_delete_ne g.pendingPrompts hne
  | some err =>
    refine ⟨{ AnalysisID := "", ReportID := "" }, ?_, ?_, ?_, fun h => by cases h⟩
    · simp [SubmitManualResponse, hfree, hsave]
    · simp [GetPendingPrompt, GoMap.get_delete_self]
    · intro other hne
      exact GoMap.get_delete_ne g.pendingPrompts hne

/-- C5 at the sample state, for an id that is not pending and a save that succeeds. -/
theorem submit_removes_pending_witness :
    sampleGlobals.promptsMuLocked = false ∧
    sampleGlobals.pendingPrompts.get "unknown-id" = none ∧
    ∃ (g₁ : Globals) (resp : AnalysisResponse),
      SubmitManualResponse (fun _ _ => none) "report-1" "unknown-id" "payload" sampleGlobals =
        (g₁, Exit.ret (resp, none)) ∧
      GetPendingPrompt "unknown-id" g₁ = Exit.ret ("", false) ∧
      (∀ other, other ≠ "unknown-id" →
        g₁.pendingPrompts.get other = sampleGlobals.pendingPrompts.get other) ∧
      ((none : Option Error) = none → resp.ReportID = "report-1") :=
  ⟨rfl, by decide,
    submit_removes_pending (fun _ _ => none) "report-1" "unknown-id" "payload" sampleGlobals rfl⟩

/-- C6 (defect in the code). At the sample engine configured with an endpoint other
than `"manual"`, its lock free, `CallAIAnalysis` returns no error: it blocks as for
`"manual"`.  The part of it after `GeneratePrompt` (lines 244-254), run on its own,
stores the prompt under the new id before it answers with the unsupported-endpoint
error, where the claim has the error returned with the map untouched. -/
theorem callAIAnalysis_unsupported_no_error :
    sampleUnsupported.aiEndpoint ≠ "manual" ∧ sampleUnsupported.muLocked = false ∧
    (CallAIAnalysis sampleLibrary "id-1" sampleUnsupported (RangeOrder.sortedOrder _)
      (RangeOrder.sortedOrder _) (RangeOrder.sortedOrder _) sampleGlobals).2.2 = Exit.blocked ∧
    (CallAIAnalysis.store "id-1" "the prompt" sampleUnsupported sampleGlobals).2.2 =
      Exit.ret ({ AnalysisID := "", ReportID := "" },
        some (Error.unsupportedEndpoint "https://ai.example/v1")) ∧
    sampleGlobals.pendingPrompts.get "id-1" = none ∧
    (CallAIAnalysis.store "id-1" "the prompt" sampleUnsupported
      sampleGlobals).2.1.pendingPrompts.get "id-1" = some "the prompt" :=
  ⟨by decide, rfl, rfl, rfl, by decide, by decide⟩

/-- Lines 244-254 of `CallAIAnalysis` on their own, for the `"manual"` endpoint:
the id is returned and the prompt is found under it, other ids are bound as before. -/
theorem CallAIAnalysis.store_manual (analysisID prompt : String) (ma : MarketAnalyzer)
    (g : Globals) (hfree : g.promptsMuLocked = false) (hmanual : ma.aiEndpoint = "manual") :
    ∃ (ma₁ : MarketAnalyzer) (g₁ : Globals),
      CallAIAnalysis.store analysisID prompt ma g =
        (ma₁, g₁, Exit.ret ({ AnalysisID := analysisID, ReportID := "" }, none)) ∧
      GetPendingPrompt analysisID g₁ = Exit.ret (prompt, true) ∧
      ∀ other, other ≠ analysisID →
        g₁.pendingPrompts.get other = g.pendingPrompts.get other := by
  refine ⟨{ ma with muLocked := false },
    { pendingPrompts := g.pendingPrompts.set analysisID prompt, promptsMuLocked := false },
    ?_, ?_, ?_⟩
  · simp [CallAIAnalysis.store, hfree, hmanual]
  · simp [GetPendingPrompt, GoMap.get_set_self]
  · intro other hne
    exact GoMap.get_set_ne g.pendingPrompts prompt hne

/-! ## C7: stopping a monitor -/

/-- C7. With the registry's lock free, the stop handler on an id that is not
registered answers 404 and leaves the server as it was.  On a registered id it
answers 200, `Stop` has been applied to the engine registered under that id and to
no other engine, the id is no longer registered while every other id is registered
as before, and a second stop of the same id answers 404 and changes nothing. -/
theorem stop_monitor_registry (srv : Server) (monitorID : String)
    (hfree : srv.registryLocked = false) :
    (srv.analyzers.get monitorID = none →
      stopMonitor (some monitorID) srv =
        (srv, Exit.ret { status := 404, body := Body.error "monitor not found" })) ∧
    (∀ addr, srv.analyzers.get monitorID = some addr →
      ∃ srv₁ : Server,
        stopMonitor (some monitorID) srv =
          (srv₁, Exit.ret { status := 200, body := Body.message "Monitoring stopped" }) ∧
        srv₁.analyzers.get monitorID = none ∧
        (∀ other, other ≠ monitorID → srv₁.analyzers.get other = srv.analyzers.get other) ∧
        srv₁.engines[addr]? = (srv.engines[addr]?).map MarketAnalyzer.Stop ∧
        (∀ i, i ≠ addr → srv₁.engines[i]? = srv.engines[i]?) ∧
        srv₁.monitors = srv.monitors ∧ srv₁.globals = srv.globals ∧
        stopMonitor (some monitorID) srv₁ =
          (srv₁, Exit.ret { status := 404, body := Body.error "monitor not found" })) := by
  constructor
  · intro hnone
    simp [stopMonitor, hfree, hnone]
  · intro addr hsome
    refine ⟨{ srv with engines := srv.engines.modify MarketAnalyzer.Stop addr,
                       analyzers := srv.analyzers.delete monitorID }, ?_, ?_, ?_, ?_, ?_,
      rfl, rfl, ?_⟩
    · simp [stopMonitor, hfree, hsome]
    · exact GoMap.get_delete_self _ _
    · intro other hne
      exact GoMap.get_delete_ne _ hne
    · simp [List.getElem?_modify]
    · intro i hne
      rw [List.getElem?_modify]
      cases srv.engines[i]? with
      | none => rfl
      | some ma => simp [Ne.symm hne]
    · simp [stopMonitor, hfree, GoMap.get_delete_self]

/-- C7 at the sample server: `mon-1` is registered for the engine at address 0. -/
theorem stop_monitor_registry_witness :
    sampleServer.registryLocked = false ∧
    sampleServer.analyzers.get "mon-1" = some 0 ∧
    ∃ srv₁ : Server,
      stopMonitor (some "mon-1") sampleServer =
        (srv₁, Exit.ret { status := 200, body := Body.message "Monitoring stopped" }) ∧
      srv₁.analyzers.get "mon-1" = none ∧
      (∀ other, other ≠ "mon-1" →
        srv₁.analyzers.get other = sampleServer.analyzers.get other) ∧
      srv₁.engines[0]? = (sampleServer.engines[0]?).map MarketAnalyzer.Stop ∧
      (∀ i, i ≠ 0 → srv₁.engines[i]? = sampleServer.engines[i]?) ∧
      srv₁.monitors = sampleServer.monitors ∧ srv₁.globals = sampleServer.globals ∧
      stopMonitor (some "mon-1") srv₁ =
        (srv₁, Exit.ret { status := 404, body := Body.error "monitor not found" }) :=
  ⟨rfl, by decide, (stop_monitor_registry sampleServer "mon-1" rfl).2 0 (by decide)⟩

/-! ## C9: the cycle floor of the start handler -/

theorem firstInvalidInterval_eq_none :
    ∀ (intervals : List String), (∀ i ∈ intervals, i ∈ validIntervals) →
      firstInvalidInterval intervals = none
  | [], _ => rfl
  | x :: rest, h => by
    unfold firstInvalidInterval
    rw [if_pos (h x (List.mem_cons_self _ _))]
    exact firstInvalidInterval_eq_none rest (fun i hi => h i (List.mem_cons_of_mem _ hi))

theorem checkCycle_eq_none_iff (lib : Library) (cycle : String) :
    checkCycle lib cycle = none ↔
      (lib.ParseDuration (if cycle = "" then "30s" else cycle) = none ∨
        ∃ duration, lib.ParseDuration (if cycle = "" then "30s" else cycle) = some duration ∧
          duration < 10 * 1000000000) := by
  simp only [checkCycle, tenSeconds]
  cases hp : lib.ParseDuration (if cycle = "" then "30s" else cycle) with
  | none => simp
  | some duration =>
    by_cases hd : duration < 10 * 1000000000
    · simp [hd]
    · simp [hd]

theorem checkCycle_eq_some (lib : Library) (cycle accepted : String)
    (h : checkCycle lib cycle = some accepted) :
    accepted = (if cycle = "" then "30s" else cycle) := by
  simp only [checkCycle] at h
  cases hp : lib.ParseDuration (if cycle = "" then "30s" else cycle) with
  | none => simp [hp] at h
  | some duration =>
    simp only [hp] at h
    by_cases hd : duration < tenSeconds
    · simp [hd] at h
    · rw [if_neg hd] at h
      exact (Option.some.inj h).symm

/-- The start handler on a request that passes the symbol and interval checks. -/
theorem startMonitor_checked (lib : Library) (cfg : Config) (ex : Exchange) (rc : RangeChoice)
    (monitorID : String) (req : MonitorRequest) (srv : Server)
    (hsym : req.Symbol ≠ "") (hne : req.Intervals ≠ [])
    (hvalid : ∀ i ∈ req.Intervals, i ∈ validIntervals) :
    startMonitor lib cfg ex rc monitorID (some req) srv =
      match checkCycle lib req.Cycle with
      | none =>
        (srv, Exit.ret { status := 400, body := Body.error "cycle must be at least 10s" })
      | some cycle =>
        match ConnectWebSocket lib ex
            (NewMarketAnalyzer req.Symbol req.Intervals cfg.AIEndpoint) with
        | (ma₁, Exit.ret (some err)) =>
          ({ srv with engines := srv.engines ++ [ma₁] },
            Exit.ret { status := 500, body := Body.failure err })
        | (ma₁, Exit.panicked) => ({ srv with engines := srv.engines ++ [ma₁] }, Exit.panicked)
        | (ma₁, Exit.blocked) => ({ srv with engines := srv.engines ++ [ma₁] }, Exit.blocked)
        | (ma₁, Exit.ret none) =>
          if srv.registryLocked then
            ({ srv with engines := srv.engines ++ [ma₁] }, Exit.blocked)
          else
            match GenerateChartData ma₁ (rc.klines ma₁.klines) with
            | (ma₂, Exit.ret chartData) =>
              ({ srv with engines := srv.engines ++ [ma₂],
                          analyzers := srv.analyzers.set monitorID srv.engines.length,
                          monitors := srv.monitors ++ [(srv.engines.length, cycle)] },
                Exit.ret { status := 200, body := Body.started chartData monitorID })
            | (ma₂, Exit.panicked) =>
              ({ srv with engines := srv.engines ++ [ma₂],
                          analyzers := srv.analyzers.set monitorID srv.engines.length,
                          monitors := srv.monitors ++ [(srv.engines.length, cycle)] },
                Exit.panicked)
            | (ma₂, Exit.blocked) =>
              ({ srv with engines := srv.engines ++ [ma₂],
                          analyzers := srv.analyzers.set monitorID srv.engines.length,
                          monitors := srv.monitors ++ [(srv.engines.length, cycle)] },
                Exit.blocked) := by
  have hlen : ¬ req.Intervals.length = 0 := fun h => hne (List.length_eq_zero.mp h)
  unfold startMonitor
  simp only [hsym, hlen, if_false, firstInvalidInterval_eq_none req.Intervals hvalid]

/-- Once the cycle is accepted an engine is constructed, the answer is not 400, and
an answer 200 comes with the engine registered and its loop started on the cycle. -/
theorem startMonitor_accepted (lib : Library) (cfg : Config) (ex : Exchange) (rc : RangeChoice)
    (monitorID : String) (req : MonitorRequest) (srv : Server) (cycle : String)
    (hsym : req.Symbol ≠ "") (hne : req.Intervals ≠ [])
    (hvalid : ∀ i ∈ req.Intervals, i ∈ validIntervals)
    (hcycle : checkCycle lib req.Cycle = some cycle) :
    (startMonitor lib cfg ex rc monitorID (some req) srv).1.engines.length =
      srv.engines.length + 1 ∧
    (∀ resp, (startMonitor lib cfg ex rc monitorID (some req) srv).2 = Exit.ret resp →
      resp.status ≠ 400 ∧
      (resp.status = 200 →
        (startMonitor lib cfg ex rc monitorID (some req) srv).1.monitors =
          srv.monitors ++ [(srv.engines.length, cycle)] ∧
        (startMonitor lib cfg ex rc monitorID (some req) srv).1.analyzers.get monitorID =
          some srv.engines.length)) := by
  rw [startMonitor_checked lib cfg ex rc monitorID req srv hsym hne hvalid, hcycle]
  simp only
  rcases ConnectWebSocket lib ex (NewMarketAnalyzer req.Symbol req.Intervals cfg.AIEndpoint)
    with ⟨ma₁, (_ | err) | _ | _⟩
  · by_cases hl : srv.registryLocked = true
    · simp [hl]
    · simp only [hl, if_false]
      rcases GenerateChartData ma₁ (rc.klines ma₁.klines) with ⟨ma₂, chart | _ | _⟩
      · refine ⟨by simp, ?_⟩
        intro resp hresp
        injection hresp with hresp
        subst hresp
        exact ⟨by simp, fun _ => ⟨rfl, GoMap.get_set_self _ _ _⟩⟩
      · simp
      · simp
  · refine ⟨by simp, ?_⟩
    intro resp hresp
    injection hresp with hresp
    subst hresp
    exact ⟨by simp, fun h => absurd h (by simp)⟩
  · simp
  · simp

/-- C9. For a start request with a non-empty symbol and a non-empty list of allowed
intervals, the handler answers 400 with the server unchanged (no engine constructed,
nothing registered, no loop started) exactly when the cycle, `"30s"` standing in for
an empty one, does not parse as a duration or parses to less than ten seconds.
Otherwise an engine is constructed, the answer is not 400, and an answer 200 comes
with the engine registered and its loop started on that cycle.  So, `ParseDuration`
reading `"5s"`, `"10s"` and `"30s"` as 5, 10 and 30 seconds, the cycle `"5s"` is
refused, `"10s"` is accepted, and an empty cycle runs with `"30s"`. -/
theorem start_monitor_cycle_floor (lib : Library) (cfg : Config) (ex : Exchange)
    (rc : RangeChoice) (monitorID : String) (req : MonitorRequest) (srv : Server)
    (hsym : req.Symbol ≠ "") (hne : req.Intervals ≠ [])
    (hvalid : ∀ i ∈ req.Intervals, i ∈ validIntervals) :
    (startMonitor lib cfg ex rc monitorID (some req) srv =
        (srv, Exit.ret { status := 400, body := Body.error "cycle must be at least 10s" }) ↔
      (lib.ParseDuration (if req.Cycle = "" then "30s" else req.Cycle) = none ∨
        ∃ duration,
          lib.ParseDuration (if req.Cycle = "" then "30s" else req.Cycle) = some duration ∧
          duration < 10 * 1000000000)) ∧
    (∀ duration,
      lib.ParseDuration (if req.Cycle = "" then "30s" else req.Cycle) = some duration →
      10 * 1000000000 ≤ duration →
      (startMonitor lib cfg ex rc monitorID (some req) srv).1.engines.length =
        srv.engines.length + 1 ∧
      ∀ resp, (startMonitor lib cfg ex rc monitorID (some req) srv).2 = Exit.ret resp →
        resp.status ≠ 400 ∧
        (resp.status = 200 →
          (startMonitor lib cfg ex rc monitorID (some req) srv).1.monitors =
            srv.monitors ++
              [(srv.engines.length, if req.Cycle = "" then "30s" else req.Cycle)] ∧
          (startMonitor lib cfg ex rc monitorID (some req) srv).1.analyzers.get monitorID =
            some srv.engines.length)) ∧
    (req.Cycle = "5s" → lib.ParseDuration "5s" = some (5 * 1000000000) →
      startMonitor lib cfg ex rc monitorID (some req) srv =
        (srv, Exit.ret { status := 400, body := Body.error "cycle must be at least 10s" })) ∧
    (req.Cycle = "10s" → lib.ParseDuration "10s" = some (10 * 1000000000) →
      (startMonitor lib cfg ex rc monitorID (some req) srv).1.engines.length =
        srv.engines.length + 1 ∧
      ∀ resp, (startMonitor lib cfg ex rc monitorID (some req) srv).2 = Exit.ret resp →
        resp.status ≠ 400) ∧
    (req.Cycle = "" → lib.ParseDuration "30s" = some (30 * 1000000000) →
      (startMonitor lib cfg ex rc monitorID (some req) srv).1.engines.length =
        srv.engines.length + 1 ∧
      ∀ resp, (startMonitor lib cfg ex rc monitorID (some req) srv).2 = Exit.ret resp →
        resp.status ≠ 400 ∧
        (resp.status = 200 →
          (startMonitor lib cfg ex rc monitorID (some req) srv).1.monitors =
            srv.monitors ++ [(srv.engines.length, "30s")])) := by
  have hrefuse : checkCycle lib req.Cycle = none →
      startMonitor lib cfg ex rc monitorID (some req) srv =
        (srv, Exit.ret { status := 400, body := Body.error "cycle must be at least 10s" }) := by
    intro h
    rw [startMonitor_checked lib cfg ex rc monitorID req srv hsym hne hvalid, h]
  have haccept : ∀ duration,
      lib.ParseDuration (if req.Cycle = "" then "30s" else req.Cycle) = some duration →
      10 * 1000000000 ≤ duration →
      checkCycle lib req.Cycle = some (if req.Cycle = "" then "30s" else req.Cycle) := by
    intro duration hp hd
    simp only [checkCycle, tenSeconds, hp]
    rw [if_neg (not_lt.mpr hd)]
  refine ⟨⟨?_, fun h => hrefuse ((checkCycle_eq_none_iff lib req.Cycle).mpr h)⟩, ?_, ?_, ?_, ?_⟩
  · intro h400
    rw [← checkCycle_eq_none_iff]
    cases hc : checkCycle lib req.Cycle with
    | none => rfl
    | some cycle =>
      have hacc := (startMonitor_accepted lib cfg ex rc monitorID req srv cycle hsym hne
        hvalid hc).1
      rw [h400] at hacc
      simp at hacc
  · intro duration hp hd
    exact startMonitor_accepted lib cfg ex rc monitorID req srv _ hsym hne hvalid
      (haccept duration hp hd)
  · intro hc hp
    apply hrefuse
    rw [checkCycle_eq_none_iff]
    refine Or.inr ⟨5 * 1000000000, ?_, by decide⟩
    rw [hc]
    simpa using hp
  · intro hc hp
    have hp' : lib.ParseDuration (if req.Cycle = "" then "30s" else req.Cycle) =
        some (10 * 1000000000) := by
      rw [hc]
      simpa using hp
    have hacc := startMonitor_accepted lib cfg ex rc monitorID req srv _ hsym hne hvalid
      (haccept _ hp' (le_refl _))
    exact ⟨hacc.1, fun resp hresp => (hacc.2 resp hresp).1⟩
  · intro hc hp
    have hp' : lib.ParseDuration (if req.Cycle = "" then "30s" else req.Cycle) =
        some (30 * 1000000000) := by
      rw [hc]
      simpa using hp
    have hacc := startMonitor_accepted lib cfg ex rc monitorID req srv _ hsym hne hvalid
      (haccept _ hp' (by decide))
    refine ⟨hacc.1, fun resp hresp => ⟨(hacc.2 resp hresp).1, fun h200 => ?_⟩⟩
    have hmon := ((hacc.2 resp hresp).2 h200).1
    rw [hmon, hc]
    simp

/-- C9 at the sample server: the cycle `"5s"` is refused and nothing changes. -/
theorem start_monitor_cycle_floor_witness :
    (sampleRequest "5s").Symbol ≠ "" ∧ (sampleRequest "5s").Intervals ≠ [] ∧
    (∀ i ∈ (sampleRequest "5s").Intervals, i ∈ validIntervals) ∧
    sampleLibrary.ParseDuration "5s" = some (5 * 1000000000) ∧
    startMonitor sampleLibrary sampleConfig sampleExchange sampleChoice "mon-3"
        (some (sampleRequest "5s")) sampleServer =
      (sampleServer,
        Exit.ret { status := 400, body := Body.error "cycle must be at least 10s" }) :=
  ⟨by decide, by decide, by decide, by decide,
    (start_monitor_cycle_floor sampleLibrary sampleConfig sampleExchange sampleChoice "mon-3"
      (sampleRequest "5s") sampleServer (by decide) (by decide) (by decide)).2.2.1 rfl
      (by decide)⟩

/-! ## C10: quantities that do not convert -/

theorem lookupEntry_append {ν : Type} (k : String) :
    ∀ (l₁ l₂ : List (String × ν)),
      lookupEntry k (l₁ ++ l₂) = (lookupEntry k l₁).elim (lookupEntry k l₂) some
  | [], _ => rfl
  | x :: rest, l₂ => by
    rw [List.cons_append, lookupEntry_cons, lookupEntry_cons, lookupEntry_append k rest l₂]
    by_cases h : k = x.1
    · simp [h]
    · simp [h]

theorem lookupEntry_of_mem {ν : Type} {e : String × ν} :
    ∀ {l : List (String × ν)}, e ∈ l → ∃ v, lookupEntry e.1 l = some v
  | x :: rest, h => by
    rw [lookupEntry_cons]
    by_cases hx : e.1 = x.1
    · exact ⟨x.2, by rw [if_pos hx]⟩
    · rw [if_neg hx]
      rcases List.mem_cons.mp h with h | h
      · exact absurd (congrArg Prod.fst h) hx
      · exact lookupEntry_of_mem h

/-- Storing bindings one after the other, keys possibly repeated: a key ends up with
the (transformed) value of its last occurrence. -/
theorem GoMap.get_foldl_set_last {ν μ : Type} (f : ν → μ) (k : String) :
    ∀ (l : List (String × ν)) (acc : GoMap μ),
      (l.foldl (fun acc e => acc.set e.1 (f e.2)) acc).get k =
        (lookupEntry k l.reverse).elim (acc.get k) (fun v => some (f v))
  | [], acc => rfl
  | x :: rest, acc => by
    rw [List.foldl_cons, GoMap.get_foldl_set_last f k rest, List.reverse_cons,
      lookupEntry_append]
    cases lookupEntry k rest.reverse with
    | some v => rfl
    | none =>
      simp only [Option.elim, lookupEntry_cons]
      by_cases h : k = x.1
      · rw [if_pos h, h]
        exact GoMap.get_set_self acc x.1 (f x.2)
      · rw [if_neg h]
        exact GoMap.get_set_ne acc (f x.2) h

theorem storeLevels_get (lib : Library) (levels : List (String × String)) (price : String) :
    (storeLevels lib levels).get price =
      (lookupEntry price levels.reverse).map (fun qty => (lib.ParseFloat qty).1) := by
  unfold storeLevels
  rw [GoMap.get_foldl_set_last (fun qty => (lib.ParseFloat qty).1) price levels GoMap.empty]
  cases lookupEntry price levels.reverse <;> rfl

theorem storeLevels_bound (lib : Library) (levels : List (String × String))
    (level : String × String) (h : level ∈ levels) :
    ∃ qty, (storeLevels lib levels).get level.1 = some qty := by
  obtain ⟨v, hv⟩ := lookupEntry_of_mem (List.mem_reverse.mpr h)
  exact ⟨(lib.ParseFloat v).1, by rw [storeLevels_get, hv]; rfl⟩

theorem storeLevels_distinct (lib : Library) (levels : List (String × String))
    (hd : levels.Pairwise (fun a b => a.1 ≠ b.1)) (level : String × String)
    (h : level ∈ levels) :
    (storeLevels lib levels).get level.1 = some (lib.ParseFloat level.2).1 := by
  have hd' : levels.reverse.Pairwise (fun a b => a.1 ≠ b.1) :=
    List.pairwise_reverse.mpr (List.Pairwise.imp (fun hab => Ne.symm hab) hd)
  have hl : lookupEntry level.1 levels.reverse = some level.2 :=
    (lookupEntry_some_iff_mem hd').mpr (List.mem_reverse.mpr h)
  rw [storeLevels_get, hl]
  rfl

/-- C10 as amended. When the depth body decodes and the engine's lock is free, the
depth step succeeds and the new order book binds every price of the response, none
left out: each price to the value `ParseFloat` returned for the quantity text of the
last level with that price, whether or not the conversion reported an error; with
distinct prices every level is bound to the value returned for its own quantity. -/
theorem depth_levels_all_stored (lib : Library) (ex : Exchange) (ma : MarketAnalyzer)
    (depth : DepthBody) (hdepth : ex.depth = HttpResult.decoded depth)
    (hfree : ma.muLocked = false) :
    ∃ ma₁ : MarketAnalyzer,
      fetchDepth lib ex ma = (ma₁, Exit.ret none) ∧
      ma₁.orderBook.LastUpdateID = depth.LastUpdateID ∧
      (∀ price, ma₁.orderBook.Bids.get price =
        (lookupEntry price depth.Bids.reverse).map (fun qty => (lib.ParseFloat qty).1)) ∧
      (∀ price, ma₁.orderBook.Asks.get price =
        (lookupEntry price depth.Asks.reverse).map (fun qty => (lib.ParseFloat qty).1)) ∧
      (∀ level ∈ depth.Bids, ∃ qty, ma₁.orderBook.Bids.get level.1 = some qty) ∧
      (∀ level ∈ depth.Asks, ∃ qty, ma₁.orderBook.Asks.get level.1 = some qty) ∧
      (depth.Bids.Pairwise (fun a b => a.1 ≠ b.1) → ∀ level ∈ depth.Bids,
        ma₁.orderBook.Bids.get level.1 = some (lib.ParseFloat level.2).1) ∧
      (depth.Asks.Pairwise (fun a b => a.1 ≠ b.1) → ∀ level ∈ depth.Asks,
        ma₁.orderBook.Asks.get level.1 = some (lib.ParseFloat level.2).1) := by
  refine ⟨{ ma with
      orderBook :=
        { LastUpdateID := depth.LastUpdateID
          Bids := storeLevels lib depth.Bids
          Asks := storeLevels lib depth.Asks }
      muLocked := false }, ?_, rfl, storeLevels_get lib depth.Bids,
    storeLevels_get lib depth.Asks, storeLevels_bound lib depth.Bids,
    storeLevels_bound lib depth.Asks, storeLevels_distinct lib depth.Bids,
    storeLevels_distinct lib depth.Asks⟩
  simp [fetchDepth, hdepth, hfree]

/-- C10 as amended, at the sample exchange: the bid at `99.90` carries `"abc"`. -/
theorem depth_levels_all_stored_witness :
    sampleExchange.depth = HttpResult.decoded
      { LastUpdateID := 42, Bids := [("100.00", "1.5"), ("99.90", "abc")],
        Asks := [("100.10", "2")] } ∧
    sampleAnalyzer.muLocked = false ∧
    ∃ ma₁ : MarketAnalyzer,
      fetchDepth sampleLibrary sampleExchange sampleAnalyzer = (ma₁, Exit.ret none) ∧
      ma₁.orderBook.LastUpdateID = 42 ∧
      ∀ level ∈ [("100.00", "1.5"), ("99.90", "abc")],
        ∃ qty, ma₁.orderBook.Bids.get level.1 = some qty :=
  ⟨rfl, rfl,
    match depth_levels_all_stored sampleLibrary sampleExchange sampleAnalyzer _ rfl rfl with
    | ⟨ma₁, h₁, h₂, _, _, h₅, _⟩ => ⟨ma₁, h₁, h₂, h₅⟩⟩

/-- C10 refuted as stated. At the sample exchange the bid level at `99.90` has the
quantity text `"abc"`, for which `ParseFloat` reports an error together with the
value zero; the depth step and the whole fetch succeed, and the order book has an
entry for `99.90`, bound to zero, where the claim has the entry left out. -/
theorem depth_unconverted_level_present :
    (sampleLibrary.ParseFloat "abc").2 = false ∧
    (fetchDepth sampleLibrary sampleExchange sampleAnalyzer).2 = Exit.ret none ∧
    (fetchDepth sampleLibrary sampleExchange sampleAnalyzer).1.orderBook.Bids.get "99.90" =
      some ⟨0⟩ ∧
    (FetchRealtimeData sampleLibrary sampleExchange sampleAnalyzer).2 = Exit.ret none ∧
    (FetchRealtimeData sampleLibrary sampleExchange sampleAnalyzer).1.orderBook.Bids.get
      "99.90" ≠ none :=
  ⟨rfl, rfl, by decide, rfl, by decide⟩

/-! ## C8: stopping the monitoring loop -/

theorem appendKlines_cancelled (lib : Library) (interval : String) :
    ∀ (rows : List (List Interface)) (ma : MarketAnalyzer),
      (appendKlines lib interval rows ma).1.cancelled = ma.cancelled
  | [], _ => rfl
  | k :: rest, ma => by
    rw [appendKlines]
    cases klineOfRow lib k with
    | none => rfl
    | some kline => exact appendKlines_cancelled lib interval rest _

theorem fetchKlines_cancelled (lib : Library) (ex : Exchange) (i : Nat) (interval : String)
    (ma : MarketAnalyzer) : (fetchKlines lib ex i interval ma).1.cancelled = ma.cancelled := by
  unfold fetchKlines
  cases ex.klines i interval with
  | fetchFailed => rfl
  | unmarshalFailed => rfl
  | decoded klines =>
    by_cases hl : ma.muLocked = true
    · simp [hl]
    · simp only [hl, if_false]
      have h := appendKlines_cancelled lib interval klines
        { ma with muLocked := true, klines := ma.klines.set interval [] }
      rcases happ : appendKlines lib interval klines
          { ma with muLocked := true, klines := ma.klines.set interval [] }
        with ⟨ma₂, _ | _ | _⟩ <;> rw [happ] at h <;> exact h

theorem fetchAllKlines_cancelled (lib : Library) (ex : Exchange) :
    ∀ (i : Nat) (intervals : List String) (ma : MarketAnalyzer),
      (fetchAllKlines lib ex i intervals ma).1.cancelled = ma.cancelled
  | _, [], _ => rfl
  | i, interval :: rest, ma => by
    rw [fetchAllKlines]
    have h := fetchKlines_cancelled lib ex i interval ma
    rcases hk : fetchKlines lib ex i interval ma with ⟨ma₁, (_ | err) | _ | _⟩ <;>
      rw [hk] at h
    · exact (fetchAllKlines_cancelled lib ex (i + 1) rest ma₁).trans h
    · exact h
    · exact h
    · exact h

theorem fetchDepth_cancelled (lib : Library) (ex : Exchange) (ma : MarketAnalyzer) :
    (fetchDepth lib ex ma).1.cancelled = ma.cancelled := by
  unfold fetchDepth
  cases ex.depth with
  | fetchFailed => rfl
  | unmarshalFailed => rfl
  | decoded depth => by_cases hl : ma.muLocked = true <;> simp [hl]

theorem fetchTrades_cancelled (ex : Exchange) (ma : MarketAnalyzer) :
    (fetchTrades ex ma).1.cancelled = ma.cancelled := by
  unfold fetchTrades
  cases ex.trades with
  | fetchFailed => rfl
  | unmarshalFailed => rfl
  | decoded trades => by_cases hl : ma.muLocked = true <;> simp [hl]

theorem FetchRealtimeData_cancelled (lib : Library) (ex : Exchange) (ma : MarketAnalyzer) :
    (FetchRealtimeData lib ex ma).1.cancelled = ma.cancelled := by
  unfold FetchRealtimeData
  have h₁ := fetchAllKlines_cancelled lib ex 0 ma.intervals ma
  rcases hk : fetchAllKlines lib ex 0 ma.intervals ma with ⟨ma₁, (_ | err) | _ | _⟩ <;>
    rw [hk] at h₁
  · have h₂ := fetchDepth_cancelled lib ex ma₁
    dsimp only
    rcases hd : fetchDepth lib ex ma₁ with ⟨ma₂, (_ | err) | _ | _⟩ <;> rw [hd] at h₂
    · exact (fetchTrades_cancelled ex ma₂).trans (h₂.trans h₁)
    · exact h₂.trans h₁
    · exact h₂.trans h₁
    · exact h₂.trans h₁
  · exact h₁
  · exact h₁
  · exact h₁

theorem GenerateChartData_cancelled (ma : MarketAnalyzer) (order : RangeOrder ma.klines) :
    (GenerateChartData ma order).1.cancelled = ma.cancelled := by
  unfold GenerateChartData
  by_cases hl : ma.muLocked = true <;> simp [hl]

theorem CallAIAnalysis_cancelled (lib : Library) (analysisID : String) (ma : MarketAnalyzer)
    (ok : RangeOrder ma.klines) (ob : RangeOrder ma.orderBook.Bids)
    (oa : RangeOrder ma.orderBook.Asks) (g : Globals) :
    (CallAIAnalysis lib analysisID ma ok ob oa g).1.cancelled = ma.cancelled := by
  by_cases hl : ma.muLocked = true
  · simp [CallAIAnalysis, hl]
  · rw [CallAIAnalysis_eq_blocked lib analysisID ma ok ob oa g (by simpa using hl)]

theorem monitorCycle_cancelled (lib : Library) (ex : Exchange) (rc : RangeChoice)
    (analysisID : String) (ma : MarketAnalyzer) (g : Globals) :
    (monitorCycle lib ex rc analysisID ma g).1.cancelled = ma.cancelled := by
  unfold monitorCycle
  have h₁ := FetchRealtimeData_cancelled lib ex ma
  rcases hf : FetchRealtimeData lib ex ma with ⟨ma₁, (_ | err) | _ | _⟩ <;> rw [hf] at h₁
  · have h₂ := GenerateChartData_cancelled ma₁ (rc.klines ma₁.klines)
    dsimp only
    rcases hc : GenerateChartData ma₁ (rc.klines ma₁.klines) with ⟨ma₂, chart | _ | _⟩ <;>
      rw [hc] at h₂
    · dsimp only
      by_cases hl : ma₂.muLocked = true
      · simp only [hl, if_true]
        exact h₂.trans h₁
      · simp only [hl, if_false]
        have h₃ := CallAIAnalysis_cancelled lib analysisID
          { ma₂ with latestChartData := some chart, muLocked := false }
          (rc.klines _) (rc.bids _) (rc.asks _) g
        rcases ha : CallAIAnalysis lib analysisID
            { ma₂ with latestChartData := some chart, muLocked := false }
            (rc.klines _) (rc.bids _) (rc.asks _) g with ⟨ma₄, g₁, _ | _ | _⟩ <;>
          rw [ha] at h₃ <;> exact h₃.trans (h₂.trans h₁)
    · exact h₂.trans h₁
    · exact h₂.trans h₁
  · exact h₁
  · exact h₁
  · exact h₁

theorem Monitor.step_cancelled (lib : Library) (m m₁ : Monitor) (e : Event)
    (hstep : m.step lib e = some m₁) (hc : m.ma.cancelled = true) :
    m₁.ma.cancelled = true := by
  cases e with
  | stop =>
    simp only [Monitor.step, Option.some.injEq] at hstep
    rw [← hstep]
    rfl
  | tickerFires =>
    simp only [Monitor.step] at hstep
    cases hl : m.loop <;> simp only [hl, Option.some.injEq] at hstep <;>
      first
        | (rw [← hstep]; exact hc)
        | exact absurd hstep (by simp)
  | selectDone =>
    simp only [Monitor.step] at hstep
    split_ifs at hstep
    simp only [Option.some.injEq] at hstep
    rw [← hstep]
    exact hc
  | selectTick =>
    simp only [Monitor.step] at hstep
    split_ifs at hstep
    simp only [Option.some.injEq] at hstep
    rw [← hstep]
    exact hc
  | runCycle ex rc analysisID =>
    simp only [Monitor.step] at hstep
    split_ifs at hstep
    have h := monitorCycle_cancelled lib ex rc analysisID m.ma m.g
    rcases hm : monitorCycle lib ex rc analysisID m.ma m.g with ⟨ma₁, g₁, _ | _ | _⟩ <;>
      rw [hm] at h hstep <;> simp only [Option.some.injEq] at hstep <;>
      rw [← hstep] <;> exact h.trans hc

theorem Monitor.run_cancelled (lib : Library) :
    ∀ (events : List Event) (m m₁ : Monitor), Monitor.run lib m events = some m₁ →
      m.ma.cancelled = true → m₁.ma.cancelled = true
  | [], m, m₁, hrun, hc => by
    simp only [Monitor.run, Option.some.injEq] at hrun
    exact hrun ▸ hc
  | e :: rest, m, m₁, hrun, hc => by
    rw [Monitor.run] at hrun
    cases hs : m.step lib e with
    | none => simp [hs] at hrun
    | some m₂ =>
      simp only [hs] at hrun
      exact Monitor.run_cancelled lib rest m₂ m₁ hrun (Monitor.step_cancelled lib m m₂ e hs hc)

theorem Monitor.step_quiet (lib : Library) (m m₁ : Monitor) (e : Event)
    (hstep : m.step lib e = some m₁)
    (hquiet : ∀ ex rc analysisID, e ≠ Event.runCycle ex rc analysisID) :
    m₁.ma.snapshot = m.ma.snapshot ∧ m₁.g = m.g := by
  cases e with
  | stop =>
    simp only [Monitor.step, Option.some.injEq] at hstep
    rw [← hstep]
    exact ⟨rfl, rfl⟩
  | tickerFires =>
    simp only [Monitor.step] at hstep
    cases hl : m.loop <;> simp only [hl, Option.some.injEq] at hstep <;>
      first
        | (rw [← hstep]; exact ⟨rfl, rfl⟩)
        | exact absurd hstep (by simp)
  | selectDone =>
    simp only [Monitor.step] at hstep
    split_ifs at hstep
    simp only [Option.some.injEq] at hstep
    rw [← hstep]
    exact ⟨rfl, rfl⟩
  | selectTick =>
    simp only [Monitor.step] at hstep
    split_ifs at hstep
    simp only [Option.some.injEq] at hstep
    rw [← hstep]
    exact ⟨rfl, rfl⟩
  | runCycle ex rc analysisID => exact absurd rfl (hquiet ex rc analysisID)

theorem Monitor.step_returned (lib : Library) (m m₁ : Monitor) (e : Event)
    (err : Option Error) (hret : m.loop = LoopState.returned err)
    (hstep : m.step lib e = some m₁) :
    m₁.loop = LoopState.returned err ∧ m₁.ma.snapshot = m.ma.snapshot ∧ m₁.g = m.g := by
  cases e with
  | stop =>
    simp only [Monitor.step, Option.some.injEq] at hstep
    rw [← hstep]
    exact ⟨hret, rfl, rfl⟩
  | tickerFires => simp [Monitor.step, hret] at hstep
  | selectDone => simp [Monitor.step, hret] at hstep
  | selectTick => simp [Monitor.step, hret] at hstep
  | runCycle ex rc analysisID => simp [Monitor.step, hret] at hstep

theorem Monitor.run_returned (lib : Library) (err : Option Error) :
    ∀ (events : List Event) (m m₁ : Monitor), m.loop = LoopState.returned err →
      Monitor.run lib m events = some m₁ →
      m₁.loop = LoopState.returned err ∧ m₁.ma.snapshot = m.ma.snapshot ∧ m₁.g = m.g
  | [], m, m₁, hret, hrun => by
    simp only [Monitor.run, Option.some.injEq] at hrun
    subst hrun
    exact ⟨hret, rfl, rfl⟩
  | e :: rest, m, m₁, hret, hrun => by
    rw [Monitor.run] at hrun
    cases hs : m.step lib e with
    | none => simp [hs] at hrun
    | some m₂ =>
      simp only [hs] at hrun
      obtain ⟨h₁, h₂, h₃⟩ := Monitor.step_returned lib m m₂ e err hret hs
      obtain ⟨k₁, k₂, k₃⟩ := Monitor.run_returned lib err rest m₂ m₁ h₁ hrun
      exact ⟨k₁, k₂.trans h₂, k₃.trans h₃⟩

/-- C8 as amended. `Stop` sets the cancellation and nothing else, a second `Stop`
changes nothing, and the cancellation stays set through every run of events.  When
the loop stands at its `select` with the engine cancelled and no tick waiting in
`ticker.C`, the only step it can take is `case <-ma.ctx.Done()`: `RunMonitor`
returns without fetching or writing.  The snapshot and the pending prompts are
written by no event other than the body of `case <-ticker.C`, and after `RunMonitor`
has returned no run of events writes them.  A cycle whose tick was taken before the
`Stop` is not aborted: it runs to its end on the cancelled engine. -/
theorem stop_halts_idle_loop (lib : Library) (m : Monitor) :
    m.ma.Stop.cancelled = true ∧ m.ma.Stop.snapshot = m.ma.snapshot ∧
    m.ma.Stop.Stop = m.ma.Stop ∧
    (∀ (events : List Event) (m₁ : Monitor), m.ma.cancelled = true →
      Monitor.run lib m events = some m₁ → m₁.ma.cancelled = true) ∧
    (m.loop = LoopState.selecting → m.ma.cancelled = true → m.tick = false →
      m.step lib Event.selectDone = some { m with loop := LoopState.returned none } ∧
      m.step lib Event.selectTick = none ∧
      ∀ ex rc analysisID, m.step lib (Event.runCycle ex rc analysisID) = none) ∧
    (∀ (e : Event) (m₁ : Monitor), m.step lib e = some m₁ →
      (∀ ex rc analysisID, e ≠ Event.runCycle ex rc analysisID) →
      m₁.ma.snapshot = m.ma.snapshot ∧ m₁.g = m.g) ∧
    (∀ (err : Option Error) (events : List Event) (m₁ : Monitor),
      m.loop = LoopState.returned err → Monitor.run lib m events = some m₁ →
      m₁.loop = LoopState.returned err ∧ m₁.ma.snapshot = m.ma.snapshot ∧ m₁.g = m.g) ∧
    (m.loop = LoopState.inCycle → ∀ ex rc analysisID,
      ∃ m₁, m.step lib (Event.runCycle ex rc analysisID) = some m₁ ∧
        m₁.ma = (monitorCycle lib ex rc analysisID m.ma m.g).1) := by
  refine ⟨rfl, rfl, rfl, fun events m₁ hc hrun => Monitor.run_cancelled lib events m m₁ hrun hc,
    ?_, fun e m₁ hstep hq => Monitor.step_quiet lib m m₁ e hstep hq,
    fun err events m₁ hret hrun => Monitor.run_returned lib err events m m₁ hret hrun, ?_⟩
  · intro hsel hc htick
    refine ⟨by simp [Monitor.step, hsel, hc], by simp [Monitor.step, htick], ?_⟩
    intro ex rc analysisID
    simp [Monitor.step, hsel]
  · intro hcyc ex rc analysisID
    rcases hm : monitorCycle lib ex rc analysisID m.ma m.g with ⟨ma₁, g₁, _ | _ | _⟩ <;>
      simp [Monitor.step, hcyc, hm]

/-- C8 refuted as stated, at the sample engine running with the cycle `"10s"`.
First run: the `select` takes a tick, `Stop` is called while the cycle is in flight,
and the cycle then stores the klines and the order book it fetched (update id 42
in place of 7, 2 klines in place of 25) on the cancelled engine.  Second run: a
second tick arrives during that cycle; at the next `select` both channels are ready,
the `select` takes the tick, and a whole further cycle fetches and writes (update id
43) before the loop returns. -/
theorem stop_then_cycle_writes :
    (Monitor.run sampleLibrary sampleMonitor
      [Event.tickerFires, Event.selectTick, Event.stop]).map Monitor.view =
      some (true, LoopState.inCycle, 7, some 25) ∧
    (Monitor.run sampleLibrary sampleMonitor
      [Event.tickerFires, Event.selectTick, Event.stop,
        Event.runCycle sampleExchangeNoTrades sampleChoice "id-1"]).map Monitor.view =
      some (true, LoopState.selecting, 42, some 2) ∧
    (Monitor.run sampleLibrary sampleMonitor
      [Event.tickerFires, Event.selectTick, Event.tickerFires, Event.stop,
        Event.runCycle sampleExchangeNoTrades sampleChoice "id-1"]).map Monitor.view =
      some (true, LoopState.selecting, 42, some 2) ∧
    (Monitor.run sampleLibrary sampleMonitor
      [Event.tickerFires, Event.selectTick, Event.tickerFires, Event.stop,
        Event.runCycle sampleExchangeNoTrades sampleChoice "id-1", Event.selectTick,
        Event.runCycle sampleExchangeLater sampleChoice "id-2",
        Event.selectDone]).map Monitor.view =
      some (true, LoopState.returned none, 43, some 2) := by
  refine ⟨?_, ?_, ?_, ?_⟩ <;> decide

/-! ## C11: klines bodies of the wrong shape -/

theorem klineOfRow_short (lib : Library) (k : List Interface) (h : k.length < 7) :
    klineOfRow lib k = none := by
  have h6 : k[6]? = none := List.getElem?_eq_none (by omega)
  unfold klineOfRow
  rw [h6]
  cases assertFloat64 k[0]? <;> cases assertString k[1]? <;> cases assertString k[2]? <;>
    cases assertString k[3]? <;> cases assertString k[4]? <;> cases assertString k[5]? <;> rfl

theorem appendKlines_bad_row (lib : Library) (interval : String) :
    ∀ (rows : List (List Interface)) (ma : MarketAnalyzer),
      (∃ row ∈ rows, klineOfRow lib row = none) →
      (appendKlines lib interval rows ma).2 = Exit.panicked ∧
      (appendKlines lib interval rows ma).1.muLocked = ma.muLocked
  | [], _, h => by
    obtain ⟨row, hrow, _⟩ := h
    cases hrow
  | k :: rest, ma, h => by
    rw [appendKlines]
    cases hk : klineOfRow lib k with
    | none => exact ⟨rfl, rfl⟩
    | some kline =>
      have hrest : ∃ row ∈ rest, klineOfRow lib row = none := by
        obtain ⟨row, hrow, hbad⟩ := h
        rcases List.mem_cons.mp hrow with hrow | hrow
        · rw [hrow, hk] at hbad
          cases hbad
        · exact ⟨row, hrow, hbad⟩
      exact appendKlines_bad_row lib interval rest _ hrest

/-- A klines body that decodes but has a row `klineOfRow` cannot read (too short, or
an element of the wrong type): with the lock free, the interval's step panics with
the lock still held, and no error is returned. -/
theorem fetchKlines_bad_row (lib : Library) (ex : Exchange) (i : Nat) (interval : String)
    (ma : MarketAnalyzer) (rows : List (List Interface))
    (hrows : ex.klines i interval = HttpResult.decoded rows)
    (hbad : ∃ row ∈ rows, klineOfRow lib row = none) (hfree : ma.muLocked = false) :
    (fetchKlines lib ex i interval ma).2 = Exit.panicked ∧
    (fetchKlines lib ex i interval ma).1.muLocked = true := by
  have h := appendKlines_bad_row lib interval rows
    { ma with muLocked := true, klines := ma.klines.set interval [] } hbad
  unfold fetchKlines
  simp only [hrows, hfree]
  rcases happ : appendKlines lib interval rows
      { ma with muLocked := true, klines := ma.klines.set interval [] }
    with ⟨ma₂, _ | _ | _⟩ <;> rw [happ] at h <;> simp at h ⊢
  exact h

/-- C11 (defect in the code). At the sample engine, which holds 25 klines for `15m`
and has its lock free, a klines body whose second row has only two elements makes
`FetchRealtimeData` panic on `k[2]`; a body whose first row carries the open time as
a string makes it panic on `k[0].(float64)`.  In both runs no error is returned, the
lock taken on line 170 stays held, and the 25 stored klines are gone: line 171 had
already replaced them, and only the rows before the bad one are stored. -/
theorem fetch_malformed_klines_panics :
    sampleAnalyzer.muLocked = false ∧
    (sampleAnalyzer.klines.get "15m").map List.length = some 25 ∧
    (FetchRealtimeData sampleLibrary sampleExchangeShortRow sampleAnalyzer).2 =
      Exit.panicked ∧
    (FetchRealtimeData sampleLibrary sampleExchangeShortRow sampleAnalyzer).1.muLocked =
      true ∧
    (FetchRealtimeData sampleLibrary sampleExchangeShortRow sampleAnalyzer).1.klines.get "15m" =
      some [{ OpenTime := 1, Open := "100.0", High := "101.0", Low := "99.0",
              Close := "100.5", Volume := "12.0", CloseTime := 60 }] ∧
    (FetchRealtimeData sampleLibrary sampleExchangeWrongType sampleAnalyzer).2 =
      Exit.panicked ∧
    (FetchRealtimeData sampleLibrary sampleExchangeWrongType sampleAnalyzer).1.muLocked =
      true ∧
    (FetchRealtimeData sampleLibrary sampleExchangeWrongType sampleAnalyzer).1.klines.get "15m" =
      some [] :=
  ⟨rfl, by decide, rfl, rfl, by decide, rfl, rfl, by decide⟩

/-! ## C12: the snapshot after a successful fetch -/

theorem GoMap.set_set {ν : Type} (m : GoMap ν) (k : String) (a b : ν) :
    (m.set k a).set k b = m.set k b := by
  apply GoMap.ext
  intro k'
  by_cases h : k' = k
  · rw [h, GoMap.get_set_self, GoMap.get_set_self]
  · rw [GoMap.get_set_ne _ _ h, GoMap.get_set_ne _ _ h, GoMap.get_set_ne _ _ h]

theorem GoMap.set_of_get {ν : Type} (m : GoMap ν) (k : String) (v : ν)
    (h : m.get k = some v) : m.set k v = m := by
  apply GoMap.ext
  intro k'
  by_cases hk : k' = k
  · rw [hk, GoMap.get_set_self, h]
  · rw [GoMap.get_set_ne _ _ hk]

/-- The loop of lines 172-182 when it runs to its end: every row has been read, and
the klines read are appended, in order, to what the interval held. -/
theorem appendKlines_ret (lib : Library) (interval : String) :
    ∀ (rows : List (List Interface)) (ma ma' : MarketAnalyzer) (prev : List Kline),
      ma.klines.get interval = some prev →
      appendKlines lib interval rows ma = (ma', Exit.ret ()) →
      ∃ ks, rows.map (klineOfRow lib) = ks.map some ∧
        ma' = { ma with klines := ma.klines.set interval (prev ++ ks) }
  | [], ma, ma', prev, hprev, h => by
    simp only [appendKlines, Prod.mk.injEq, and_true] at h
    refine ⟨[], rfl, ?_⟩
    rw [List.append_nil, GoMap.set_of_get _ _ _ hprev, ← h]
  | k :: rest, ma, ma', prev, hprev, h => by
    rw [appendKlines] at h
    cases hk : klineOfRow lib k with
    | none => simp [hk] at h
    | some kline =>
      simp only [hk, hprev, Option.getD_some] at h
      obtain ⟨ks, hks, hma⟩ := appendKlines_ret lib interval rest _ ma' (prev ++ [kline])
        (GoMap.get_set_self _ _ _) h
      refine ⟨kline :: ks, by simp [hk, hks], ?_⟩
      rw [hma]
      simp [GoMap.set_set]

/-- The step for one interval when it returns no error: the lock was free, the body
decoded, every row was read, and the interval now holds exactly the klines read. -/
theorem fetchKlines_ret (lib : Library) (ex : Exchange) (i : Nat) (interval : String)
    (ma ma' : MarketAnalyzer) (h : fetchKlines lib ex i interval ma = (ma', Exit.ret none)) :
    ma.muLocked = false ∧
    ∃ rows ks, ex.klines i interval = HttpResult.decoded rows ∧
      rows.map (klineOfRow lib) = ks.map some ∧
      ma' = { ma with klines := ma.klines.set interval ks, muLocked := false } := by
  unfold fetchKlines at h
  cases hk : ex.klines i interval with
  | fetchFailed => simp [hk] at h
  | unmarshalFailed => simp [hk] at h
  | decoded rows =>
    simp only [hk] at h
    by_cases hl : ma.muLocked = true
    · simp [hl] at h
    · have hfree : ma.muLocked = false := by simpa using hl
      simp only [hfree] at h
      rcases happ : appendKlines lib interval rows
          { ma with muLocked := true, klines := ma.klines.set interval [] }
        with ⟨ma₂, _ | _ | _⟩
      · rw [happ] at h
        simp only [Bool.false_eq_true, if_false, Prod.mk.injEq, and_true] at h
        obtain ⟨ks, hks, hma₂⟩ := appendKlines_ret lib interval rows _ ma₂ []
          (GoMap.get_set_self _ _ _) happ
        refine ⟨hfree, rows, ks, rfl, hks, ?_⟩
        rw [← h, hma₂]
        simp [GoMap.set_set]
      · rw [happ] at h
        simp at h
      · rw [happ] at h
        simp at h

theorem exists_last_index {α : Type} (a : α) :
    ∀ (l : List α), a ∈ l → ∃ n : Nat, l[n]? = some a ∧ ∀ j : Nat, n < j → l[j]? ≠ some a
  | x :: rest, h => by
    by_cases hr : a ∈ rest
    · obtain ⟨n, hn, hlast⟩ := exists_last_index a rest hr
      refine ⟨n + 1, by simpa using hn, ?_⟩
      intro j hj
      obtain ⟨j', rfl⟩ : ∃ j', j = j' + 1 := ⟨j - 1, by omega⟩
      simpa using hlast j' (by omega)
    · have hx : a = x := by
        rcases List.mem_cons.mp h with h | h
        · exact h
        · exact absurd h hr
      refine ⟨0, by simp [hx], ?_⟩
      intro j hj
      obtain ⟨j', rfl⟩ : ∃ j', j = j' + 1 := ⟨j - 1, by omega⟩
      intro hget
      have hmem : a ∈ rest := by
        have hget' : rest[j']? = some a := by simpa using hget
        exact List.getElem?_mem hget'
      exact hr hmem

/-- The loop over the intervals when it returns no error: nothing but the klines
has changed, an interval that is not configured holds what it held, and a configured
interval holds the klines read from the reply to the last request made for it. -/
theorem fetchAllKlines_ret (lib : Library) (ex : Exchange) :
    ∀ (intervals : List String) (i : Nat) (ma ma' : MarketAnalyzer),
      fetchAllKlines lib ex i intervals ma = (ma', Exit.ret none) →
      ma' = { ma with klines := ma'.klines } ∧
      (∀ interval, interval ∉ intervals → ma'.klines.get interval = ma.klines.get interval) ∧
      (∀ (n : Nat) (interval : String), intervals[n]? = some interval →
        (∀ j : Nat, n < j → intervals[j]? ≠ some interval) →
        ∃ rows ks, ex.klines (i + n) interval = HttpResult.decoded rows ∧
          rows.map (klineOfRow lib) = ks.map some ∧ ma'.klines.get interval = some ks)
  | [], i, ma, ma', h => by
    simp only [fetchAllKlines, Prod.mk.injEq, and_true] at h
    subst h
    exact ⟨rfl, fun _ _ => rfl, fun n interval hn => by simp at hn⟩
  | x :: rest, i, ma, ma', h => by
    rw [fetchAllKlines] at h
    rcases hk : fetchKlines lib ex i x ma with ⟨ma₁, (_ | err) | _ | _⟩
    · rw [hk] at h
      simp only at h
      obtain ⟨hfree, rows, ks, hrows, hks, hma₁⟩ := fetchKlines_ret lib ex i x ma ma₁ hk
      obtain ⟨hframe, hother, hconf⟩ := fetchAllKlines_ret lib ex rest (i + 1) ma₁ ma' h
      have hget₁ : ∀ interval, interval ≠ x → ma₁.klines.get interval = ma.klines.get interval := by
        intro interval hne
        rw [hma₁]
        exact GoMap.get_set_ne _ _ hne
      have hself : ma₁.klines.get x = some ks := by
        rw [hma₁]
        exact GoMap.get_set_self _ _ _
      refine ⟨?_, ?_, ?_⟩
      · rw [hframe, hma₁]
        cases ma
        simp only at hfree
        subst hfree
        rfl
      · intro interval hnot
        have hne : interval ≠ x := fun hx => hnot (hx ▸ List.mem_cons_self _ _)
        have hnot' : interval ∉ rest := fun hr => hnot (List.mem_cons_of_mem _ hr)
        rw [hother interval hnot', hget₁ interval hne]
      · intro n interval hn hlast
        cases n with
        | zero =>
          have hx : x = interval := by simpa using hn
          subst hx
          have hnot : x ∉ rest := by
            intro hr
            obtain ⟨j, hj⟩ := List.getElem?_of_mem hr
            exact hlast (j + 1) (by omega) (by simpa using hj)
          exact ⟨rows, ks, hrows, hks, by rw [hother x hnot, hself]⟩
        | succ n =>
          have hn' : rest[n]? = some interval := by simpa using hn
          have hlast' : ∀ j, n < j → rest[j]? ≠ some interval := by
            intro j hj
            simpa using hlast (j + 1) (by omega)
          obtain ⟨rows', ks', hrows', hks', hget'⟩ := hconf n interval hn' hlast'
          refine ⟨rows', ks', ?_, hks', hget'⟩
          rw [← hrows']
          congr 1
          omega
    · rw [hk] at h
      simp at h
    · rw [hk] at h
      simp at h
    · rw [hk] at h
      simp at h

theorem fetchDepth_ret (lib : Library) (ex : Exchange) (ma ma' : MarketAnalyzer)
    (h : fetchDepth lib ex ma = (ma', Exit.ret none)) :
    ma.muLocked = false ∧
    ∃ depth, ex.depth = HttpResult.decoded depth ∧
      ma' = { ma with
        orderBook :=
          { LastUpdateID := depth.LastUpdateID
            Bids := storeLevels lib depth.Bids
            Asks := storeLevels lib depth.Asks }
        muLocked := false } := by
  unfold fetchDepth at h
  cases hd : ex.depth with
  | fetchFailed => simp [hd] at h
  | unmarshalFailed => simp [hd] at h
  | decoded depth =>
    simp only [hd] at h
    by_cases hl : ma.muLocked = true
    · simp [hl] at h
    · have hfree : ma.muLocked = false := by simpa using hl
      simp only [hfree, Bool.false_eq_true, if_false, Prod.mk.injEq, and_true] at h
      exact ⟨hfree, depth, rfl, h.symm⟩

theorem fetchTrades_ret (ex : Exchange) (ma ma' : MarketAnalyzer)
    (h : fetchTrades ex ma = (ma', Exit.ret none)) :
    ma.muLocked = false ∧
    ∃ trades, ex.trades = HttpResult.decoded trades ∧
      ma' = { ma with trades := trades, sentiment := "neutral", muLocked := false } := by
  unfold fetchTrades at h
  cases ht : ex.trades with
  | fetchFailed => simp [ht] at h
  | unmarshalFailed => simp [ht] at h
  | decoded trades =>
    simp only [ht] at h
    by_cases hl : ma.muLocked = true
    · simp [hl] at h
    · have hfree : ma.muLocked = false := by simpa using hl
      simp only [hfree, Bool.false_eq_true, if_false, Prod.mk.injEq, and_true] at h
      exact ⟨hfree, trades, rfl, h.symm⟩

theorem assertFloat64_eq_some {x : Option Interface} {f : Float64}
    (h : assertFloat64 x = some f) : x = some (Interface.float64 f) := by
  cases x with
  | none => cases h
  | some v =>
    cases v with
    | float64 g => cases h; rfl
    | null => cases h
    | bool b => cases h
    | string t => cases h
    | slice xs => cases h
    | object fields => cases h

theorem assertString_eq_some {x : Option Interface} {t : String}
    (h : assertString x = some t) : x = some (Interface.string t) := by
  cases x with
  | none => cases h
  | some v =>
    cases v with
    | string u => cases h; rfl
    | null => cases h
    | bool b => cases h
    | float64 g => cases h
    | slice xs => cases h
    | object fields => cases h

/-- A row that `klineOfRow` reads has a number at index 0 and 6 and a string at
indices 1 to 5, and the kline is made of these seven values. -/
theorem klineOfRow_some_fields (lib : Library) (row : List Interface) (k : Kline)
    (h : klineOfRow lib row = some k) :
    ∃ (openTime : Float64) (open_ high low close volume : String) (closeTime : Float64),
      row[0]? = some (Interface.float64 openTime) ∧
      row[1]? = some (Interface.string open_) ∧
      row[2]? = some (Interface.string high) ∧
      row[3]? = some (Interface.string low) ∧
      row[4]? = some (Interface.string close) ∧
      row[5]? = some (Interface.string volume) ∧
      row[6]? = some (Interface.float64 closeTime) ∧
      k = { OpenTime := lib.toInt64 openTime, Open := open_, High := high, Low := low,
            Close := close, Volume := volume, CloseTime := lib.toInt64 closeTime } := by
  unfold klineOfRow at h
  split at h
  · rename_i openTime open_ high low close volume closeTime h₀ h₁ h₂ h₃ h₄ h₅ h₆
    exact ⟨openTime, open_, high, low, close, volume, closeTime, assertFloat64_eq_some h₀,
      assertString_eq_some h₁, assertString_eq_some h₂, assertString_eq_some h₃,
      assertString_eq_some h₄, assertString_eq_some h₅, assertFloat64_eq_some h₆,
      (Option.some.inj h).symm⟩
  · cases h

/-- Klines read row by row: as many klines as rows, and the kline at each position
is made of the seven leading values of the row at that position. -/
theorem klines_of_rows_fields (lib : Library) (rows : List (List Interface))
    (ks : List Kline) (h : rows.map (klineOfRow lib) = ks.map some) :
    ks.length = rows.length ∧
    ∀ (r : Nat) (row : List Interface), rows[r]? = some row →
      ∃ (openTime : Float64) (open_ high low close volume : String) (closeTime : Float64),
        row[0]? = some (Interface.float64 openTime) ∧
        row[1]? = some (Interface.string open_) ∧
        row[2]? = some (Interface.string high) ∧
        row[3]? = some (Interface.string low) ∧
        row[4]? = some (Interface.string close) ∧
        row[5]? = some (Interface.string volume) ∧
        row[6]? = some (Interface.float64 closeTime) ∧
        ks[r]? = some { OpenTime := lib.toInt64 openTime, Open := open_, High := high,
                        Low := low, Close := close, Volume := volume,
                        CloseTime := lib.toInt64 closeTime } := by
  constructor
  · have hlen := congrArg List.length h
    rw [List.length_map, List.length_map] at hlen
    exact hlen.symm
  · intro r row hrow
    have hr := congrArg (fun l => l[r]?) h
    simp only [List.getElem?_map, hrow, Option.map_some'] at hr
    cases hk : ks[r]? with
    | none => rw [hk] at hr; cases hr
    | some k =>
      rw [hk] at hr
      have hrow' : klineOfRow lib row = some k := by simpa using hr
      obtain ⟨openTime, open_, high, low, close, volume, closeTime, h₀, h₁, h₂, h₃, h₄, h₅,
        h₆, hkline⟩ := klineOfRow_some_fields lib row k hrow'
      exact ⟨openTime, open_, high, low, close, volume, closeTime, h₀, h₁, h₂, h₃, h₄, h₅,
        h₆, by rw [hkline]⟩

/-- A call of `FetchRealtimeData` that returns no error: the three bodies decoded,
the lock is free afterwards, and each part of the snapshot is what the replies give. -/
theorem FetchRealtimeData_ret (lib : Library) (ex : Exchange) (ma ma' : MarketAnalyzer)
    (h : FetchRealtimeData lib ex ma = (ma', Exit.ret none)) :
    ∃ depth trades, ex.depth = HttpResult.decoded depth ∧
      ex.trades = HttpResult.decoded trades ∧
      ma'.orderBook =
        { LastUpdateID := depth.LastUpdateID
          Bids := storeLevels lib depth.Bids
          Asks := storeLevels lib depth.Asks } ∧
      ma'.trades = trades ∧ ma'.muLocked = false ∧
      (∀ interval, interval ∉ ma.intervals →
        ma'.klines.get interval = ma.klines.get interval) ∧
      (∀ (n : Nat) (interval : String), ma.intervals[n]? = some interval →
        (∀ j : Nat, n < j → ma.intervals[j]? ≠ some interval) →
        ∃ rows ks, ex.klines n interval = HttpResult.decoded rows ∧
          rows.map (klineOfRow lib) = ks.map some ∧ ma'.klines.get interval = some ks) := by
  unfold FetchRealtimeData at h
  rcases hk : fetchAllKlines lib ex 0 ma.intervals ma with ⟨ma₁, (_ | err) | _ | _⟩
  · rw [hk] at h
    dsimp only at h
    obtain ⟨hframe, hother, hconf⟩ := fetchAllKlines_ret lib ex ma.intervals 0 ma ma₁ hk
    rcases hd : fetchDepth lib ex ma₁ with ⟨ma₂, (_ | err) | _ | _⟩
    · rw [hd] at h
      dsimp only at h
      obtain ⟨_, depth, hdepth, hma₂⟩ := fetchDepth_ret lib ex ma₁ ma₂ hd
      obtain ⟨_, trades, htrades, hma'⟩ := fetchTrades_ret ex ma₂ ma' h
      have hkl : ma'.klines = ma₁.klines := by rw [hma', hma₂]
      refine ⟨depth, trades, hdepth, htrades, by rw [hma', hma₂], by rw [hma'], by rw [hma'],
        ?_, ?_⟩
      · intro interval hnot
        rw [hkl]
        exact hother interval hnot
      · intro n interval hn hlast
        obtain ⟨rows, ks, hrows, hks, hget⟩ := hconf n interval hn hlast
        rw [Nat.zero_add] at hrows
        exact ⟨rows, ks, hrows, hks, by rw [hkl]; exact hget⟩
    · rw [hd] at h
      simp at h
    · rw [hd] at h
      simp at h
    · rw [hd] at h
      simp at h
  · rw [hk] at h
    simp at h
  · rw [hk] at h
    simp at h
  · rw [hk] at h
    simp at h

/-- C12. After a call of `FetchRealtimeData` that returns no error, every configured
interval holds as many klines as the reply to the last request made for it has rows,
and the kline at each position has the open time, open, high, low, close, volume and
close time that the row at that position carries at its indices 0 to 6 (the two
times converted with `int64`); the order book carries the update id of the depth reply and its
sides bind exactly the prices of that reply (to the value `ParseFloat` gave for the
quantity of the last level at the price), so no level of the earlier book is left;
the trades are the list of the trades reply.  A second engine with the same
intervals, whatever it held before, ends with the same order book and trades and the
same klines for every configured interval, and with the same klines altogether when
neither engine held klines for an interval that is not configured. -/
theorem fetch_snapshot_from_responses (lib : Library) (ex : Exchange)
    (ma ma' : MarketAnalyzer) (hok : FetchRealtimeData lib ex ma = (ma', Exit.ret none)) :
    (∀ (n : Nat) (interval : String), ma.intervals[n]? = some interval →
      (∀ j : Nat, n < j → ma.intervals[j]? ≠ some interval) →
      ∃ rows ks, ex.klines n interval = HttpResult.decoded rows ∧
        ma'.klines.get interval = some ks ∧ ks.length = rows.length ∧
        ∀ (r : Nat) (row : List Interface), rows[r]? = some row →
          ∃ (openTime : Float64) (open_ high low close volume : String)
            (closeTime : Float64),
            row[0]? = some (Interface.float64 openTime) ∧
            row[1]? = some (Interface.string open_) ∧
            row[2]? = some (Interface.string high) ∧
            row[3]? = some (Interface.string low) ∧
            row[4]? = some (Interface.string close) ∧
            row[5]? = some (Interface.string volume) ∧
            row[6]? = some (Interface.float64 closeTime) ∧
            ks[r]? = some { OpenTime := lib.toInt64 openTime, Open := open_, High := high,
                            Low := low, Close := close, Volume := volume,
                            CloseTime := lib.toInt64 closeTime }) ∧
    (∃ depth, ex.depth = HttpResult.decoded depth ∧
      ma'.orderBook.LastUpdateID = depth.LastUpdateID ∧
      (∀ price, ma'.orderBook.Bids.get price =
        (lookupEntry price depth.Bids.reverse).map (fun qty => (lib.ParseFloat qty).1)) ∧
      (∀ price, ma'.orderBook.Asks.get price =
        (lookupEntry price depth.Asks.reverse).map (fun qty => (lib.ParseFloat qty).1)) ∧
      (∀ price, (∀ level ∈ depth.Bids, level.1 ≠ price) →
        ma'.orderBook.Bids.get price = none) ∧
      (∀ price, (∀ level ∈ depth.Asks, level.1 ≠ price) →
        ma'.orderBook.Asks.get price = none)) ∧
    (∃ trades, ex.trades = HttpResult.decoded trades ∧ ma'.trades = trades) ∧
    (∀ mb mb' : MarketAnalyzer, mb.intervals = ma.intervals →
      FetchRealtimeData lib ex mb = (mb', Exit.ret none) →
      mb'.orderBook = ma'.orderBook ∧ mb'.trades = ma'.trades ∧
      (∀ interval ∈ ma.intervals, mb'.klines.get interval = ma'.klines.get interval) ∧
      ((∀ interval, interval ∉ ma.intervals →
          ma.klines.get interval = none ∧ mb.klines.get interval = none) →
        mb'.klines = ma'.klines)) := by
  obtain ⟨depth, trades, hdepth, htrades, hbook, htr, _, hother, hconf⟩ :=
    FetchRealtimeData_ret lib ex ma ma' hok
  refine ⟨?_, ⟨depth, hdepth, by rw [hbook], ?_, ?_, ?_, ?_⟩, ⟨trades, htrades, htr⟩, ?_⟩
  · intro n interval hn hlast
    obtain ⟨rows, ks, hrows, hks, hget⟩ := hconf n interval hn hlast
    exact ⟨rows, ks, hrows, hget, klines_of_rows_fields lib rows ks hks⟩
  · intro price
    rw [hbook]
    exact storeLevels_get lib depth.Bids price
  · intro price
    rw [hbook]
    exact storeLevels_get lib depth.Asks price
  · intro price hnone
    rw [hbook]
    show (storeLevels lib depth.Bids).get price = none
    rw [storeLevels_get, lookupEntry_eq_none_of_ne
      (fun e he => hnone e (List.mem_reverse.mp he))]
    rfl
  · intro price hnone
    rw [hbook]
    show (storeLevels lib depth.Asks).get price = none
    rw [storeLevels_get, lookupEntry_eq_none_of_ne
      (fun e he => hnone e (List.mem_reverse.mp he))]
    rfl
  · intro mb mb' hint hokb
    obtain ⟨depthb, tradesb, hdepthb, htradesb, hbookb, htrb, _, hotherb, hconfb⟩ :=
      FetchRealtimeData_ret lib ex mb mb' hokb
    have hd : depthb = depth := HttpResult.decoded.inj (hdepthb.symm.trans hdepth)
    have ht : tradesb = trades := HttpResult.decoded.inj (htradesb.symm.trans htrades)
    have hconfigured : ∀ interval ∈ ma.intervals,
        mb'.klines.get interval = ma'.klines.get interval := by
      intro interval hmem
      obtain ⟨n, hn, hlast⟩ := exists_last_index interval ma.intervals hmem
      obtain ⟨rows, ks, hrows, hks, hget⟩ := hconf n interval hn hlast
      obtain ⟨rowsb, ksb, hrowsb, hksb, hgetb⟩ :=
        hconfb n interval (hint ▸ hn) (hint ▸ hlast)
      have hr : rowsb = rows := HttpResult.decoded.inj (hrowsb.symm.trans hrows)
      have hk : ksb = ks :=
        List.map_injective_iff.mpr (Option.some_injective Kline)
          (by rw [← hksb, ← hks, hr])
      rw [hget, hgetb, hk]
    refine ⟨by rw [hbook, hbookb, hd], by rw [htr, htrb, ht], hconfigured, ?_⟩
    intro hkeys
    apply GoMap.ext
    intro interval
    by_cases hmem : interval ∈ ma.intervals
    · exact hconfigured interval hmem
    · rw [hother interval hmem, hotherb interval (hint ▸ hmem), (hkeys interval hmem).1,
        (hkeys interval hmem).2]

/-- C12 at the sample engine and the sample exchange: the call returns no error, and
the engine, which held 25 klines for `15m`, update id 7, two bids, one ask and 60
trades, ends with the two klines of the reply for `15m`, read field by field, with
the update id 42, the two bids and the one ask of the depth reply, and with its one
trade. -/
theorem fetch_snapshot_from_responses_witness :
    FetchRealtimeData sampleLibrary sampleExchange sampleAnalyzer =
      (sampleAnalyzerFetched, Exit.ret none) ∧
    (∃ rows ks, sampleExchange.klines 0 "15m" = HttpResult.decoded rows ∧
      sampleAnalyzerFetched.klines.get "15m" = some ks ∧ ks.length = rows.length ∧
      ∀ (r : Nat) (row : List Interface), rows[r]? = some row →
        ∃ (openTime : Float64) (open_ high low close volume : String)
          (closeTime : Float64),
          row[0]? = some (Interface.float64 openTime) ∧
          row[1]? = some (Interface.string open_) ∧
          row[2]? = some (Interface.string high) ∧
          row[3]? = some (Interface.string low) ∧
          row[4]? = some (Interface.string close) ∧
          row[5]? = some (Interface.string volume) ∧
          row[6]? = some (Interface.float64 closeTime) ∧
          ks[r]? = some { OpenTime := sampleLibrary.toInt64 openTime, Open := open_,
                          High := high, Low := low, Close := close, Volume := volume,
                          CloseTime := sampleLibrary.toInt64 closeTime }) ∧
    sampleAnalyzerFetched.klines.get "15m" =
      some [{ OpenTime := 1, Open := "100.0", High := "101.0", Low := "99.0",
              Close := "100.5", Volume := "12.0", CloseTime := 60 },
            { OpenTime := 2, Open := "100.0", High := "101.0", Low := "99.0",
              Close := "100.5", Volume := "12.0", CloseTime := 61 }] ∧
    (∃ depth, sampleExchange.depth = HttpResult.decoded depth ∧
      sampleAnalyzerFetched.orderBook.LastUpdateID = depth.LastUpdateID ∧
      (∀ price, sampleAnalyzerFetched.orderBook.Bids.get price =
        (lookupEntry price depth.Bids.reverse).map
          (fun qty => (sampleLibrary.ParseFloat qty).1)) ∧
      (∀ price, sampleAnalyzerFetched.orderBook.Asks.get price =
        (lookupEntry price depth.Asks.reverse).map
          (fun qty => (sampleLibrary.ParseFloat qty).1)) ∧
      (∀ price, (∀ level ∈ depth.Bids, level.1 ≠ price) →
        sampleAnalyzerFetched.orderBook.Bids.get price = none) ∧
      (∀ price, (∀ level ∈ depth.Asks, level.1 ≠ price) →
        sampleAnalyzerFetched.orderBook.Asks.get price = none)) ∧
    sampleAnalyzerFetched.orderBook.LastUpdateID = 42 ∧
    sampleAnalyzerFetched.orderBook.Bids.entries =
      [("100.00", ⟨0x3FF8000000000000⟩), ("99.90", ⟨0⟩)] ∧
    sampleAnalyzerFetched.orderBook.Asks.entries = [("100.10", ⟨0x4000000000000000⟩)] ∧
    (∃ trades, sampleExchange.trades = HttpResult.decoded trades ∧
      sampleAnalyzerFetched.trades = trades) ∧
    sampleAnalyzerFetched.trades.length = 1 :=
  have hok : FetchRealtimeData sampleLibrary sampleExchange sampleAnalyzer =
      (sampleAnalyzerFetched, Exit.ret none) :=
    Prod.ext rfl rfl
  have hlast : ∀ j : Nat, 0 < j → sampleAnalyzer.intervals[j]? ≠ some "15m" :=
    fun j hj =>
      match j, hj with
      | 1, _ => by decide
      | _ + 2, _ => by simp [sampleAnalyzer]
  ⟨hok,
    (fetch_snapshot_from_responses sampleLibrary sampleExchange sampleAnalyzer
      sampleAnalyzerFetched hok).1 0 "15m" rfl hlast,
    rfl,
    (fetch_snapshot_from_responses sampleLibrary sampleExchange sampleAnalyzer
      sampleAnalyzerFetched hok).2.1,
    rfl, rfl, rfl,
    (fetch_snapshot_from_responses sampleLibrary sampleExchange sampleAnalyzer
      sampleAnalyzerFetched hok).2.2.1,
    rfl⟩

/-! ## C13: the lock around `GeneratePrompt` -/

/-- The body of `case <-ticker.C` when the fetch returns no error: the chart view is
cached, and the cycle then blocks inside `CallAIAnalysis` with the engine's lock
held and nothing stored among the pending prompts. -/
theorem monitorCycle_blocked (lib : Library) (ex : Exchange) (rc : RangeChoice)
    (analysisID : String) (ma ma₁ : MarketAnalyzer) (g : Globals)
    (hfetch : FetchRealtimeData lib ex ma = (ma₁, Exit.ret none)) :
    ∃ ma₂, monitorCycle lib ex rc analysisID ma g = (ma₂, g, Exit.blocked) ∧
      ma₂.muLocked = true := by
  obtain ⟨_, _, _, _, _, _, hfree, _, _⟩ := FetchRealtimeData_ret lib ex ma ma₁ hfetch
  unfold monitorCycle
  rw [hfetch]
  dsimp only
  have hchart : GenerateChartData ma₁ (rc.klines ma₁.klines) =
      ({ ma₁ with muLocked := false },
        Exit.ret
          { kline := (rc.klines ma₁.klines).visit.foldl
              (fun acc e => acc.set e.1 (lastN 20 e.2)) GoMap.empty
            bids := ma₁.orderBook.Bids, asks := ma₁.orderBook.Asks }) := by
    unfold GenerateChartData
    simp [hfree]
  rw [hchart]
  dsimp only
  rw [if_neg (by simp), CallAIAnalysis_eq_blocked lib analysisID _ _ _ _ g rfl]
  exact ⟨_, rfl, rfl⟩

theorem Monitor.step_blocked (lib : Library) (m m₁ : Monitor) (e : Event)
    (hb : m.loop = LoopState.blocked) (hstep : m.step lib e = some m₁) :
    m₁.loop = LoopState.blocked ∧ m₁.ma.muLocked = m.ma.muLocked := by
  cases e with
  | stop =>
    simp only [Monitor.step, Option.some.injEq] at hstep
    rw [← hstep]
    exact ⟨hb, rfl⟩
  | tickerFires =>
    simp only [Monitor.step, hb, Option.some.injEq] at hstep
    rw [← hstep]
    exact ⟨rfl, rfl⟩
  | selectDone => simp [Monitor.step, hb] at hstep
  | selectTick => simp [Monitor.step, hb] at hstep
  | runCycle ex rc analysisID => simp [Monitor.step, hb] at hstep

theorem Monitor.run_blocked (lib : Library) :
    ∀ (events : List Event) (m m₁ : Monitor), m.loop = LoopState.blocked →
      Monitor.run lib m events = some m₁ →
      m₁.loop = LoopState.blocked ∧ m₁.ma.muLocked = m.ma.muLocked
  | [], m, m₁, hb, hrun => by
    simp only [Monitor.run, Option.some.injEq] at hrun
    subst hrun
    exact ⟨hb, rfl⟩
  | e :: rest, m, m₁, hb, hrun => by
    rw [Monitor.run] at hrun
    cases hs : m.step lib e with
    | none => simp [hs] at hrun
    | some m₂ =>
      simp only [hs] at hrun
      obtain ⟨h₁, h₂⟩ := Monitor.step_blocked lib m m₂ e hb hs
      obtain ⟨k₁, k₂⟩ := Monitor.run_blocked lib rest m₂ m₁ h₁ hrun
      exact ⟨k₁, k₂.trans h₂⟩

/-- C13 (defect in the code). With the lock modelled as held or free, `CallAIAnalysis`
on an engine whose lock is free does acquire `ma.mu` while it holds it: line 241
takes the lock and `GeneratePrompt`, called on line 243 with the lock held, blocks in
the `Lock()` of line 298, so the call blocks with the lock held and nothing stored.
A monitor cycle whose fetch returns no error therefore ends blocked with the lock
held, and from then on, whatever happens, the loop stays blocked with the lock held:
it neither reaches its next tick nor observes a cancellation. -/
theorem callAIAnalysis_relocks_held_lock (lib : Library) (m : Monitor) :
    (m.ma.muLocked = false →
      ∀ (analysisID : String) (ok : RangeOrder m.ma.klines)
        (ob : RangeOrder m.ma.orderBook.Bids) (oa : RangeOrder m.ma.orderBook.Asks),
        (GeneratePrompt lib { m.ma with muLocked := true } ok ob oa).2 = Exit.blocked ∧
        CallAIAnalysis lib analysisID m.ma ok ob oa m.g =
          ({ m.ma with muLocked := true }, m.g, Exit.blocked)) ∧
    (m.loop = LoopState.inCycle →
      ∀ (ex : Exchange) (rc : RangeChoice) (analysisID : String) (ma₁ : MarketAnalyzer),
        FetchRealtimeData lib ex m.ma = (ma₁, Exit.ret none) →
        ∃ m₁, m.step lib (Event.runCycle ex rc analysisID) = some m₁ ∧
          m₁.loop = LoopState.blocked ∧ m₁.ma.muLocked = true ∧ m₁.g = m.g) ∧
    (m.loop = LoopState.blocked →
      ∀ (events : List Event) (m₁ : Monitor), Monitor.run lib m events = some m₁ →
        m₁.loop = LoopState.blocked ∧ m₁.ma.muLocked = m.ma.muLocked) := by
  refine ⟨?_, ?_, fun hb events m₁ hrun => Monitor.run_blocked lib events m m₁ hb hrun⟩
  · intro hfree analysisID ok ob oa
    refine ⟨?_, CallAIAnalysis_eq_blocked lib analysisID m.ma ok ob oa m.g hfree⟩
    simp [GeneratePrompt, generatePrompt]
  · intro hcyc ex rc analysisID ma₁ hfetch
    obtain ⟨ma₂, hcycle, hlocked⟩ := monitorCycle_blocked lib ex rc analysisID m.ma ma₁ m.g hfetch
    refine ⟨{ m with ma := ma₂, g := m.g, loop := LoopState.blocked }, ?_, rfl, hlocked, rfl⟩
    simp [Monitor.step, hcyc, hcycle]

/-- C13 at the sample monitor: after one tick against the sample exchange, the fetch
having stored the update id 42, the loop is blocked with the lock held; a `Stop` and
a further tick leave it so, and the `select` cannot take the cancellation. -/
theorem callAIAnalysis_relocks_held_lock_witness :
    sampleMonitor.ma.muLocked = false ∧
    CallAIAnalysis sampleLibrary "id-1" sampleMonitor.ma (RangeOrder.sortedOrder _)
        (RangeOrder.sortedOrder _) (RangeOrder.sortedOrder _) sampleMonitor.g =
      ({ sampleMonitor.ma with muLocked := true }, sampleMonitor.g, Exit.blocked) ∧
    (Monitor.run sampleLibrary sampleMonitor
      [Event.tickerFires, Event.selectTick,
        Event.runCycle sampleExchange sampleChoice "id-1"]).map
        (fun m => (m.view, m.ma.muLocked)) =
      some ((false, LoopState.blocked, 42, some 2), true) ∧
    (Monitor.run sampleLibrary sampleMonitor
      [Event.tickerFires, Event.selectTick,
        Event.runCycle sampleExchange sampleChoice "id-1", Event.stop,
        Event.tickerFires]).map (fun m => (m.view, m.ma.muLocked)) =
      some ((true, LoopState.blocked, 42, some 2), true) ∧
    (Monitor.run sampleLibrary sampleMonitor
      [Event.tickerFires, Event.selectTick,
        Event.runCycle sampleExchange sampleChoice "id-1", Event.stop,
        Event.selectDone]).map Monitor.view = none :=
  ⟨rfl,
    ((callAIAnalysis_relocks_held_lock sampleLibrary sampleMonitor).1 rfl "id-1"
      (RangeOrder.sortedOrder _) (RangeOrder.sortedOrder _) (RangeOrder.sortedOrder _)).2,
    by decide, by decide, by decide⟩

end CryptoPulse
